import Mathlib

/-!
Verification development for the ISDBScanner channel scanner.

This file gives a shallow embedding, in Lean, of the three core components of
the scanner:

* the channel-model builder (`analyze`, from `isdb_scanner/analyzer.py`,
  `TransportStreamAnalyzer.analyze` together with the private text-normalization
  helper `__fullWidthToHalfWith`),
* the terrestrial deduplication pass of the scan orchestrator
  (`isdb_scanner/__main__.py`, lines 161-206 of `main`), and
* the tuner session controller's `tune` error/timeout handling
  (`isdb_scanner/tuner.py`, `ISDBTuner.tune`).

Python dictionaries keyed by an id are embedded as insertion-ordered lists of
records with unique keys; in-place mutation of a record held by a dictionary is
embedded as replacing the (first) record with the matching key.  Python's
stable `sort` is embedded as `List.insertionSort` (any two stable sorts agree
on all inputs).  `float` signal levels are embedded as `ℚ`: every level the
orchestrator handles is either the sentinel constant or a parsed decimal, and
the pass only compares such values for order and equality, which the embedding
preserves.  Exceptions are embedded with `Except`.
-/

/-! ### Text normalization (`TransportStreamAnalyzer.__fullWidthToHalfWith`) -/

/-- `zenkaku_table` of `analyzer.py` (full-width digits and Latin letters). -/
def zenkaku_table : String :=
  "０１２３４５６７８９ＡＢＣＤＥＦＧＨＩＪＫＬＭＮＯＰＱＲＳＴＵＶＷＸＹＺａｂｃｄｅｆｇｈｉｊｋｌｍｎｏｐｑｒｓｔｕｖｗｘｙｚ"

/-- `hankaku_table` of `analyzer.py` (half-width digits and Latin letters). -/
def hankaku_table : String :=
  "0123456789ABCDEFGHIJKLMNOPQRSTUVWXYZabcdefghijklmnopqrstuvwxyz"

/-- `symbol_zenkaku_table` of `analyzer.py` (full-width symbols). -/
def symbol_zenkaku_table : String :=
  "＂＃＄％＆＇（）＋，－．／：；＜＝＞［＼］＾＿｀｛｜｝　"

/-- `symbol_hankaku_table` of `analyzer.py` (half-width symbols; the double
quote, apostrophe, backtick and curly brackets are written with `\x` escapes). -/
def symbol_hankaku_table : String :=
  "\x22#$%&\x27()+,-./:;<=>[\\]^_\x60\x7b|\x7d "

/-- The reverse substitutions and dash unification added to `merged_table` by
the final `merged_table.update({...})` call of `__fullWidthToHalfWith`. -/
def override_pairs : List (Char × Char) :=
  [('!', '！'), ('?', '？'), ('*', '＊'), ('~', '～'), ('@', '＠'),
   ('♯', '#'), ('〜', '～')]

/-- The full translation table `merged_table` of `__fullWidthToHalfWith`.
All keys are pairwise distinct, so looking up the first matching pair agrees
with the Python dict built by successive `update` calls. -/
def merged_table : List (Char × Char) :=
  zenkaku_table.data.zip hankaku_table.data
    ++ symbol_zenkaku_table.data.zip symbol_hankaku_table.data
    ++ override_pairs

/-- One-character translation through `merged_table`, as performed by
`str.translate(str.maketrans(merged_table))`: a character that is a key of the
table is replaced, any other character is kept. -/
def transChar (c : Char) : Char :=
  match merged_table.find? (fun p => p.1 == c) with
  | some p => p.2
  | none => c

/-- `TransportStreamAnalyzer.__fullWidthToHalfWith`: translate every character
of the string through `merged_table`. -/
def fullWidthToHalfWith (s : String) : String :=
  String.mk (s.data.map transChar)

/-! ### Data model (`isdb_scanner/constants.py`) -/

/-- `ServiceInfo` of `constants.py`.  `service_id` carries no `-1` default
here because both creation sites of the analyzer (`analyzer.py` lines 114-115
and 196-197) assign the id immediately after construction; `ServiceInfo.create`
below embeds that creation pattern.  All other defaults are the pydantic
field defaults. -/
structure ServiceInfo where
  channel_number : String := "Unknown"
  service_id : Nat
  service_type : Int := -1
  service_name : String := "Unknown"
  is_free : Bool := true
  is_oneseg : Bool := false
deriving DecidableEq, Repr

/-- `ServiceInfo()` immediately followed by `service_info.service_id = ...`. -/
def ServiceInfo.create (sid : Nat) : ServiceInfo :=
  { service_id := sid }

/-- `TransportStreamInfo` of `constants.py`.  As with `ServiceInfo`, the
analyzer assigns `transport_stream_id` immediately at the single creation site
(`analyzer.py` lines 80-82), embedded by `TransportStreamInfo.create`.
`network_id` keeps its `-1` default (type `Int`).  `satellite_frequency` is
embedded as `Option ℚ`; the analyzer only stores and never computes with it. -/
structure TransportStreamInfo where
  physical_channel : String := "Unknown"
  transport_stream_id : Nat
  network_id : Int := -1
  network_name : String := "Unknown"
  remote_control_key_id : Option Nat := none
  satellite_frequency : Option ℚ := none
  satellite_transponder : Option Nat := none
  satellite_slot_number : Option Nat := none
  services : List ServiceInfo := []
deriving DecidableEq, Repr

/-- `TransportStreamInfo()` immediately followed by the id assignment. -/
def TransportStreamInfo.create (tsid : Nat) : TransportStreamInfo :=
  { transport_stream_id := tsid }

/-! ### Input records (the parsed NIT/SDT sections consumed by `analyze`).
These embed the ariblib section/descriptor records at the granularity the
analyzer reads them: each descriptor list is the list returned by
`descriptors.get(Kind, [])`, in stream order. -/

/-- `TSInformationDescriptor` (ariblib): TS name and remote-control key id. -/
structure TSInformationDescriptor where
  ts_name_char : String
  remote_control_key_id : Nat
deriving DecidableEq, Repr

/-- One entry of `PartialReceptionDescriptor.services`. -/
structure PartialReceptionService where
  service_id : Nat
deriving DecidableEq, Repr

/-- `PartialReceptionDescriptor` (ariblib): the one-seg service id list. -/
structure PartialReceptionDescriptor where
  services : List PartialReceptionService
deriving DecidableEq, Repr

/-- `SatelliteDeliverySystemDescriptor` (ariblib): only the frequency is read. -/
structure SatelliteDeliverySystemDescriptor where
  frequency : ℚ
deriving DecidableEq, Repr

/-- `NetworkNameDescriptor` (ariblib): only `char` is read. -/
structure NetworkNameDescriptor where
  char : String
deriving DecidableEq, Repr

/-- One `transport_stream` entry of a NIT section, with the descriptor lists
the analyzer fetches from `transport_stream.descriptors`. -/
structure NITTransportStreamEntry where
  transport_stream_id : Nat
  tsInformationDescriptors : List TSInformationDescriptor
  partialReceptionDescriptors : List PartialReceptionDescriptor
  satelliteDeliveryDescriptors : List SatelliteDeliverySystemDescriptor
deriving DecidableEq, Repr

/-- An `ActualNetworkNetworkInformationSection` as read by the analyzer:
`network_id`, the network descriptors fetched from `nit.network_descriptors`,
and the transport-stream loop entries. -/
structure NITSection where
  network_id : Nat
  networkNameDescriptors : List NetworkNameDescriptor
  transport_streams : List NITTransportStreamEntry
deriving DecidableEq, Repr

/-- `ServiceDescriptor` (ariblib): service type and name. -/
structure SDTServiceDescriptor where
  service_type : Int
  service_name : String
deriving DecidableEq, Repr

/-- One `service` entry of an SDT section. -/
structure SDTServiceEntry where
  service_id : Nat
  free_CA_mode : Bool
  serviceDescriptors : List SDTServiceDescriptor
deriving DecidableEq, Repr

/-- A `ServiceDescriptionSection` as read by the analyzer. -/
structure SDTSection where
  transport_stream_id : Nat
  services : List SDTServiceEntry
deriving DecidableEq, Repr

/-! ### Small string helpers used by the embedding -/

/-- Python `str.startswith`. -/
def strStartsWith (s p : String) : Bool :=
  p.data.isPrefixOf s.data

/-- Python `f-string` zero padding `f'{n:0{w}d}'` for a natural number:
pad with leading zeros to at least `w` digits. -/
def padZero (w : Nat) (n : Nat) : String :=
  let s := toString n
  if s.length < w then String.mk (List.replicate (w - s.length) '0') ++ s else s

/-- The BS physical-channel label `f'BS{transponder:02d}/TS{slot}'`. -/
def bsChannelName (transponder slot : Nat) : String :=
  "BS" ++ padZero 2 transponder ++ "/TS" ++ toString slot

/-- The CS physical-channel label `f'ND{transponder:02d}'`. -/
def ndChannelName (transponder : Nat) : String :=
  "ND" ++ padZero 2 transponder

/-! ### Channel-model builder (`TransportStreamAnalyzer.analyze`) -/

/-- The list of `transport_stream_id`s of an analyzer state, in dictionary
(insertion) order; embeds `ts_infos.keys()`. -/
def tsidsOf (m : List TransportStreamInfo) : List Nat :=
  m.map (fun t => t.transport_stream_id)

/-- `ts_infos` lookup-or-create followed by a field-updating mutation
(`analyzer.py` lines 77-82): the first entry with the given key is replaced by
its updated version; if no entry has the key, a freshly created entry is
updated and appended (Python dict insertion appends in iteration order). -/
def upsertTS (m : List TransportStreamInfo) (tsid : Nat)
    (f : TransportStreamInfo → TransportStreamInfo) : List TransportStreamInfo :=
  match m with
  | [] => [f (TransportStreamInfo.create tsid)]
  | t :: rest =>
    if t.transport_stream_id = tsid then f t :: rest
    else t :: upsertTS rest tsid f

/-- In-place mutation of the entry with the given key, when present
(`ts_infos.get(...)` followed by mutation; a missing key leaves the state
unchanged, embedding the `continue` of `analyzer.py` line 190). -/
def updateTSIfPresent (m : List TransportStreamInfo) (tsid : Nat)
    (f : TransportStreamInfo → TransportStreamInfo) : List TransportStreamInfo :=
  match m with
  | [] => []
  | t :: rest =>
    if t.transport_stream_id = tsid then f t :: rest
    else t :: updateTSIfPresent rest tsid f

/-- Lookup-or-create on a transport stream's `services` list by `service_id`,
followed by a field-updating mutation (`analyzer.py` lines 111-116 and
193-198): replace the first entry with the id, else append a fresh one. -/
def upsertService (svs : List ServiceInfo) (sid : Nat)
    (f : ServiceInfo → ServiceInfo) : List ServiceInfo :=
  match svs with
  | [] => [f (ServiceInfo.create sid)]
  | s :: rest =>
    if s.service_id = sid then f s :: rest
    else s :: upsertService rest sid f

/-- The terrestrial network-id range test `0x7880 <= network_id <= 0x7FE8`. -/
def isTerrestrialNetworkId (nid : Int) : Bool :=
  decide (0x7880 ≤ nid) && decide (nid ≤ 0x7FE8)

/-- The per-transport-stream body of the NIT loop (`analyzer.py` lines 83-127),
applied to the looked-up-or-created `ts_info`.  Mirrors, in order: the
`network_id` assignment; the BS branch (`network_id == 4`) computing
transponder, slot and physical channel from the TSID bit layout; the CS110
branch (`network_id in (6, 7)`); then the terrestrial branch reading the first
TS-information descriptor and the first partial-reception descriptor, or else
the satellite branch reading every satellite-delivery-system descriptor (the
last assignment wins) and the first network-name descriptor. -/
def applyNITEntry (sec : NITSection) (e : NITTransportStreamEntry)
    (t0 : TransportStreamInfo) : TransportStreamInfo :=
  let t1 := { t0 with network_id := (sec.network_id : Int) }
  let t2 :=
    if t1.network_id = 4 then
      { t1 with
        satellite_transponder := some ((t1.transport_stream_id >>> 4) &&& 0b11111),
        satellite_slot_number := some (t1.transport_stream_id &&& 0b111),
        physical_channel :=
          bsChannelName ((t1.transport_stream_id >>> 4) &&& 0b11111)
            (t1.transport_stream_id &&& 0b111) }
    else if t1.network_id = 6 ∨ t1.network_id = 7 then
      { t1 with
        satellite_transponder := some ((t1.transport_stream_id >>> 4) &&& 0b11111),
        physical_channel := ndChannelName ((t1.transport_stream_id >>> 4) &&& 0b11111) }
    else t1
  if isTerrestrialNetworkId t2.network_id then
    let t3 :=
      match e.tsInformationDescriptors.head? with
      | some d =>
        { t2 with
          network_name := fullWidthToHalfWith d.ts_name_char,
          remote_control_key_id := some d.remote_control_key_id }
      | none => t2
    match e.partialReceptionDescriptors.head? with
    | some d =>
      { t3 with
        services :=
          d.services.foldl
            (fun svs ps =>
              upsertService svs ps.service_id (fun s => { s with is_oneseg := true }))
            t3.services }
    | none => t3
  else
    let t3 :=
      match e.satelliteDeliveryDescriptors.getLast? with
      | some d => { t2 with satellite_frequency := some d.frequency }
      | none => t2
    match sec.networkNameDescriptors.head? with
    | some d => { t3 with network_name := fullWidthToHalfWith d.char }
    | none => t3

/-- One NIT section (`for transport_stream in nit.transport_streams`). -/
def ingestNITSection (m : List TransportStreamInfo) (sec : NITSection) :
    List TransportStreamInfo :=
  sec.transport_streams.foldl
    (fun m e => upsertTS m e.transport_stream_id (applyNITEntry sec e)) m

/-- The BS slot-renumbering sort key `ts_info.satellite_slot_number or -1`
(`analyzer.py` line 150).  Python `or` treats both `None` and `0` as falsy,
so a missing slot and slot `0` both sort with key `-1`. -/
def bsSortKey (t : TransportStreamInfo) : Int :=
  match t.satellite_slot_number with
  | some s => if s = 0 then -1 else (s : Int)
  | none => -1

/-- Dictionary key insertion order (used for `defaultdict` group keys). -/
def insertKey (ks : List Nat) (k : Nat) : List Nat :=
  if k ∈ ks then ks else ks ++ [k]

/-- The transponder keys of `bs_groups`, in first-appearance order
(`analyzer.py` lines 144-147). -/
def bsTransponders (m : List TransportStreamInfo) : List Nat :=
  m.foldl
    (fun ks t =>
      if t.network_id = 4 then
        match t.satellite_transponder with
        | some tp => insertKey ks tp
        | none => ks
      else ks)
    []

/-- The members of `bs_groups[tp]`, in `ts_infos` iteration order. -/
def bsGroup (m : List TransportStreamInfo) (tp : Nat) : List TransportStreamInfo :=
  m.filter (fun t => t.network_id = 4 && t.satellite_transponder = some tp)

/-- Stable sort of one BS group by `bsSortKey` (`bs_group.sort(key=...)`). -/
def bsSortGroup (g : List TransportStreamInfo) : List TransportStreamInfo :=
  g.insertionSort (fun a b => bsSortKey a ≤ bsSortKey b)

/-- The renumbering of one BS group (`analyzer.py` lines 149-172) as an
association list `transport_stream_id ↦ new slot`: the sorted group is zipped
with the dense sequence `0, 1, ...` whose length is the number of entries
whose slot is set (`slot_numbers`/`new_slot_numbers`; `zip` truncates to the
shorter list, as in Python). -/
def renumberPairs (g : List TransportStreamInfo) : List (Nat × Nat) :=
  let sorted := bsSortGroup g
  let count := (g.filter (fun t => t.satellite_slot_number.isSome)).length
  (sorted.zip (List.range count)).map
    (fun p => (p.1.transport_stream_id, p.2))

/-- First-match association lookup. -/
def lookupPair (pairs : List (Nat × Nat)) (k : Nat) : Option Nat :=
  match pairs.find? (fun p => p.1 = k) with
  | some p => some p.2
  | none => none

/-- The in-place slot/physical-channel assignment of `analyzer.py` lines
170-172, applied through the renumbering pairs.  Every pair comes from a group
member, so a matched entry always has its transponder set. -/
def applyNewSlot (pairs : List (Nat × Nat)) (t : TransportStreamInfo) :
    TransportStreamInfo :=
  match t.satellite_transponder, lookupPair pairs t.transport_stream_id with
  | some tp, some ns =>
    { t with
      satellite_slot_number := some ns,
      physical_channel := bsChannelName tp ns }
  | _, _ => t

/-- The whole BS slot-renumbering step (`analyzer.py` lines 143-172): group
the BS entries by transponder and rewrite each entry of the state through its
group's renumbering; entries outside every group are untouched, and the state
order is unchanged (the code mutates the grouped objects in place). -/
def renumberBS (m : List TransportStreamInfo) : List TransportStreamInfo :=
  let pairs := (bsTransponders m).flatMap (fun tp => renumberPairs (bsGroup m tp))
  m.map (applyNewSlot pairs)

/-- `analyzer.py` lines 174-181: for a terrestrial tuned channel assert that
exactly one transport stream was found and force its physical channel;
otherwise stably sort the state by physical channel.  The failed `assert` is
the exception wrapped into `TransportStreamAnalyzeError`. -/
def finalizeChannels (tuned_physical_channel : String)
    (m : List TransportStreamInfo) : Except String (List TransportStreamInfo) :=
  if strStartsWith tuned_physical_channel "T" then
    match m with
    | [t] => .ok [{ t with physical_channel := tuned_physical_channel }]
    | _ => .error "assert len(ts_infos) == 1"
  else
    .ok (m.insertionSort (fun a b => a.physical_channel ≤ b.physical_channel))

/-- The per-service field update of the SDT loop (`analyzer.py` lines
199-203): set `is_free` from the inverted CA flag, then let the first service
descriptor set type and normalized name. -/
def applyServiceFields (e : SDTServiceEntry) (s0 : ServiceInfo) : ServiceInfo :=
  let s1 := { s0 with is_free := !e.free_CA_mode }
  match e.serviceDescriptors.head? with
  | some d =>
    { s1 with
      service_type := d.service_type,
      service_name := fullWidthToHalfWith d.service_name }
  | none => s1

/-- Ingestion of one SDT service record into a `services` list. -/
def applySDTService (svs : List ServiceInfo) (e : SDTServiceEntry) :
    List ServiceInfo :=
  upsertService svs e.service_id (applyServiceFields e)

/-- Stable sort of a `services` list by `service_id`
(`ts_info.services.sort(key=lambda x: x.service_id)`). -/
def sortServices (svs : List ServiceInfo) : List ServiceInfo :=
  svs.insertionSort (fun a b => a.service_id ≤ b.service_id)

/-- One SDT section (`analyzer.py` lines 185-207): each service record is
applied to the transport stream looked up by the section's
`transport_stream_id` (unknown ids are skipped), then that transport stream's
service list is re-sorted by `service_id`. -/
def ingestSDTSection (m : List TransportStreamInfo) (sec : SDTSection) :
    List TransportStreamInfo :=
  let m1 :=
    sec.services.foldl
      (fun acc e =>
        updateTSIfPresent acc sec.transport_stream_id
          (fun t => { t with services := applySDTService t.services e }))
      m
  updateTSIfPresent m1 sec.transport_stream_id
    (fun t => { t with services := sortServices t.services })

/-- The terrestrial three-digit channel-number computation for one service
(`analyzer.py` lines 219-223), given the transport stream's
`remote_control_key_id`. -/
def computeServiceChannel (key : Nat) (s : ServiceInfo) : ServiceInfo :=
  let service_type := (s.service_id &&& 0b0000000110000000) >>> 7
  let service_number := (s.service_id &&& 0b0000000000000111) + 1
  { s with
    channel_number := padZero 3 (service_type * 200 + key * 10 + service_number) }

/-- The channel-number pass for one transport stream (`analyzer.py` lines
210-226).  For a terrestrial stream the `assert ts_info.remote_control_key_id
is not None` sits inside the per-service loop, so it only fires when the
stream has at least one service. -/
def computeChannelNumbersTS (t : TransportStreamInfo) :
    Except String TransportStreamInfo :=
  if isTerrestrialNetworkId t.network_id then
    match t.services with
    | [] => .ok t
    | _ =>
      match t.remote_control_key_id with
      | none => .error "assert ts_info.remote_control_key_id is not None"
      | some key => .ok { t with services := t.services.map (computeServiceChannel key) }
  else
    .ok { t with
          services := t.services.map
            (fun s => { s with channel_number := padZero 3 s.service_id }) }

/-- The channel-number pass over the whole state, left to right; the first
failed assertion aborts the analysis. -/
def computeChannelNumbers : List TransportStreamInfo →
    Except String (List TransportStreamInfo)
  | [] => .ok []
  | t :: rest =>
    match computeChannelNumbersTS t with
    | .error e => .error e
    | .ok t' =>
      match computeChannelNumbers rest with
      | .error e => .error e
      | .ok rest' => .ok (t' :: rest')

/-- `TransportStreamAnalyzer.analyze`, over the already-parsed NIT and SDT
section records (the demultiplexing of the raw TS into sections is the
external ariblib collaborator): NIT ingestion, BS slot renumbering, the
terrestrial assert / satellite sort, SDT ingestion, and the channel-number
computation.  An error embeds `TransportStreamAnalyzeError`. -/
def analyze (nits : List NITSection) (sdts : List SDTSection)
    (tuned_physical_channel : String) : Except String (List TransportStreamInfo) :=
  let m1 := nits.foldl ingestNITSection []
  let m2 := renumberBS m1
  match finalizeChannels tuned_physical_channel m2 with
  | .error e => .error e
  | .ok m3 =>
    let m4 := sdts.foldl ingestSDTSection m3
    computeChannelNumbers m4

/-! ### Scan orchestrator: terrestrial deduplication (`__main__.py` 161-206) -/

/-- The default signal level `-99.99` assigned to a physical channel whose
mean signal level could not be measured (`__main__.py` line 183); built with
`mkRat` so that concrete runs evaluate inside the kernel. -/
def sentinelSignalLevel : ℚ := mkRat (-9999) 100

/-- `ISDBTuner.getSignalLevelMean` (`tuner.py` lines 365-393) over the stream
of parsed dB readings the signal iterator yields: take five readings and
return their arithmetic mean, or `none` when the iterator ends (the underlying
process exited) before five readings were produced. -/
def getSignalLevelMean (readings : List ℚ) : Option ℚ :=
  if readings.length < 5 then none
  else some ((readings.take 5).sum / 5)

/-- The signal level recorded for one physical channel of a duplicate group:
the mean measured by the first tuner that succeeds, abstracted as
`measured`, or the sentinel when every tuner fails (`__main__.py` 182-197). -/
def levelOf (measured : String → Option ℚ) (phys : String) : ℚ :=
  (measured phys).getD sentinelSignalLevel

/-- Insertion-or-overwrite on the `signal_levels` dict. -/
def assocUpsert (acc : List (String × ℚ)) (k : String) (v : ℚ) :
    List (String × ℚ) :=
  if acc.any (fun p => p.1 = k) then
    acc.map (fun p => if p.1 = k then (k, v) else p)
  else acc ++ [(k, v)]

/-- The `signal_levels` dict built for one duplicate group, in insertion
order (`__main__.py` lines 181-197). -/
def buildLevels (g : List TransportStreamInfo)
    (measured : String → Option ℚ) : List (String × ℚ) :=
  g.foldl (fun acc t =>
    assocUpsert acc t.physical_channel (levelOf measured t.physical_channel)) []

/-- Binary maximum on ℚ, written out so that concrete runs evaluate inside
the kernel; agrees with `max` (and with Python's `max`) on every pair. -/
def maxRat (a b : ℚ) : ℚ := if a ≤ b then b else a

/-- `max(signal_levels.values())`; the dict is never empty when consulted
(the group has at least two members), so the base value is irrelevant. -/
def maxOfLevels (levels : List (String × ℚ)) : ℚ :=
  match levels with
  | [] => 0
  | p :: rest => rest.foldl (fun m q => maxRat m q.2) p.2

/-- The removal loop of `__main__.py` lines 199-206 for one duplicate group:
every dict entry whose level differs from the maximum removes, from the
accumulated terrestrial result, the first group member with that physical
channel (`tr_ts_infos.remove(ts_info)` removes the first list element equal
to it; the looked-up member always exists and is always present). -/
def removeLosers (acc : List TransportStreamInfo)
    (g : List TransportStreamInfo) (measured : String → Option ℚ) :
    List TransportStreamInfo :=
  let levels := buildLevels g measured
  let maxL := maxOfLevels levels
  levels.foldl
    (fun acc2 p =>
      if p.2 ≠ maxL then
        match g.find? (fun t => t.physical_channel = p.1) with
        | some t => acc2.erase t
        | none => acc2
      else acc2)
    acc

/-- The `transport_stream_id` keys of `tsid_grouped_physical_channels`, in
first-appearance order (`__main__.py` lines 162-166). -/
def tsidKeys (l : List TransportStreamInfo) : List Nat :=
  l.foldl (fun ks t => insertKey ks t.transport_stream_id) []

/-- One group of the dict: the accumulated entries sharing a TSID, in order. -/
def tsidGroup (l : List TransportStreamInfo) (tsid : Nat) :
    List TransportStreamInfo :=
  l.filter (fun t => t.transport_stream_id = tsid)

/-- The whole terrestrial deduplication pass (`__main__.py` lines 161-206):
group the accumulated transport streams by TSID (groups are computed before
any removal), skip singleton groups, and for each remaining group measure
every member's mean signal level and drop every member that does not attain
the maximum. -/
def dedupTerrestrial (l : List TransportStreamInfo)
    (measured : String → Option ℚ) : List TransportStreamInfo :=
  (tsidKeys l).foldl
    (fun acc tsid =>
      let g := tsidGroup l tsid
      if g.length = 1 then acc else removeLosers acc g measured)
    l

/-! ### Tuner session controller (`ISDBTuner.tune`, `tuner.py` 207-314) -/

/-- Python `re` whitespace class `\s` on the ASCII range (the diagnostic
output of the helper is ASCII; Python additionally treats some non-ASCII
Unicode spaces as `\s`, which never occur in these messages). -/
def pyIsSpace (c : Char) : Bool :=
  c = ' ' || c = '\t' || c = '\n' || c = '\r' || c = '\x0b' || c = '\x0c'

/-- The regex atom `(.+)` anchored at the current position: the maximal
nonempty run of non-newline characters. -/
def dotPlus (l : List Char) : Option (List Char) :=
  let m := l.takeWhile (fun c => c ≠ '\n')
  if m.isEmpty then none else some m

/-- The regex tail `\s+(.+)` at the current position, greedy with
backtracking: consume as much whitespace as possible (at least one
character), then capture with `(.+)`. -/
def matchWsDot : List Char → Option (List Char)
  | [] => none
  | c :: rest =>
    if pyIsSpace c then
      match matchWsDot rest with
      | some m => some m
      | none => dotPlus rest
    else none

/-- `re.search(r'ERROR:\s+(.+)', stderr)` (`tuner.py` line 289): the captured
group of the leftmost match, scanning start positions left to right. -/
def searchError : List Char → Option (List Char)
  | [] => none
  | c :: rest =>
    match
      (if ("ERROR:".data).isPrefixOf (c :: rest) then
        matchWsDot ((c :: rest).drop 6)
      else none)
    with
    | some m => some m
    | none => searchError rest

/-- The diagnostic message extracted from the helper's stderr, with the
fallback of `tuner.py` line 293. -/
def parsedErrorMessage (stderrText : String) : String :=
  match searchError stderrText.data with
  | some m => String.mk m
  | none => "Channel selection failed due to an unknown error."

/-- The tuner-opening failure messages of `tuner.py` lines 296-301 (the
`Cannot open the device.` family is matched by prefix, see
`classifyIsOpening`). -/
def openingErrorMessages : List String :=
  ["The tuner device does not exist.",
   "The tuner device is already in use.",
   "The tuner device is busy.",
   "The tuner device does not support the ioctl system call."]

/-- The test selecting `TunerOpeningError` over `TunerTuningError`. -/
def classifyIsOpening (msg : String) : Bool :=
  openingErrorMessages.contains msg || strStartsWith msg "Cannot open the device."

/-- The outcome of one `tune` call.  `timedOut` is the
`TunerTuningError('Channel selection timed out.')` raised on tuning timeout,
`openingFailed`/`tuningFailed` carry the parsed diagnostic message, and
`stillRunning` stands for a run whose polling loop has not yet exited within
the modelled number of ticks. -/
inductive TuneOutcome where
  | success
  | timedOut
  | openingFailed (msg : String)
  | tuningFailed (msg : String)
  | outputTooSmall
  | stillRunning
deriving DecidableEq, Repr

/-- The observable end state of one `tune` call: its outcome, the
`_last_tuner_opening_failed` flag after the call, and whether the timeout
branch sent SIGINT to the helper and waited for it to exit. -/
structure TuneRun where
  outcome : TuneOutcome
  lastTunerOpeningFailed : Bool
  sigintSent : Bool
  waitedForExit : Bool
deriving DecidableEq, Repr

/-- The polling loop of `tuner.py` lines 267-271, at a granularity of one
tick per 0.01-second iteration.  `exited i` is whether `process.poll()`
reports exit at iteration `i`; `arrived i` is the value of
`is_stdout_arrived` read at iteration `i`.  The loop keeps a count of ticks
during which no stdout data had arrived and exits once the process has exited
or the count has reached `timeoutTicks` (= `tune_timeout / 0.01`; the float
accumulation of `0.01` steps is embedded as exact tick arithmetic).  Returns
the iteration and count at exit, or `none` if the loop is still running after
`fuel` iterations. -/
def tuneLoop (exited arrived : Nat → Bool) (timeoutTicks : Nat) :
    Nat → Nat → Nat → Option (Nat × Nat)
  | 0, _, _ => none
  | fuel + 1, iter, count =>
    if exited iter || decide (timeoutTicks ≤ count) then some (iter, count)
    else tuneLoop exited arrived timeoutTicks fuel (iter + 1)
      (if arrived iter then count else count + 1)

/-- `ISDBTuner.tune` from the start of the polling loop onward (`tuner.py`
lines 227 and 265-314).  The flag reset of line 227 makes the result
independent of `flagBefore`.  After the loop: if the process is still running
and no data has arrived, SIGINT is sent, the process is awaited, and the
timeout error is raised (lines 275-279); otherwise the process exit code is
classified through the parsed stderr diagnostic (lines 286-306), and a clean
exit with fewer than 100 KiB of data is `TunerOutputError` (lines 310-311). -/
def tuneModel (flagBefore : Bool) (exited arrived : Nat → Bool)
    (timeoutTicks fuel : Nat) (returncode : Int) (stderrText : String)
    (stdoutLen : Nat) : TuneRun :=
  -- line 227: `self._last_tuner_opening_failed = False`; `flagBefore` is dead.
  let _ := flagBefore
  match tuneLoop exited arrived timeoutTicks fuel 0 0 with
  | none =>
    { outcome := .stillRunning, lastTunerOpeningFailed := false,
      sigintSent := false, waitedForExit := false }
  | some (i, _) =>
    if !exited i && !arrived i then
      { outcome := .timedOut, lastTunerOpeningFailed := false,
        sigintSent := true, waitedForExit := true }
    else if returncode ≠ 0 then
      let msg := parsedErrorMessage stderrText
      if classifyIsOpening msg then
        { outcome := .openingFailed msg, lastTunerOpeningFailed := true,
          sigintSent := false, waitedForExit := true }
      else
        { outcome := .tuningFailed msg, lastTunerOpeningFailed := false,
          sigintSent := false, waitedForExit := true }
    else if stdoutLen < 100 * 1024 then
      { outcome := .outputTooSmall, lastTunerOpeningFailed := false,
        sigintSent := false, waitedForExit := true }
    else
      { outcome := .success, lastTunerOpeningFailed := false,
        sigintSent := false, waitedForExit := true }

/-- The number of loop iterations before `i` at which no stdout data had yet
arrived: the value `tune_timeout_count / 0.01` reaches at iteration `i`. -/
def missedTicks (arrived : Nat → Bool) (i : Nat) : Nat :=
  ((List.range i).filter (fun j => !arrived j)).length

/-! ### Helper lemmas -/

/-- No character that `merged_table` outputs is itself a key of the table:
the half-width letters/digits/symbols, the kept-full-width `！？＊～＠`, and
`#` are all absent from the key column. -/
lemma merged_table_output_not_key :
    merged_table.all
      (fun p => (merged_table.find? (fun q => q.1 == p.2)).isNone) = true := by
  decide

lemma transChar_idem (c : Char) : transChar (transChar c) = transChar c := by
  rcases hf : merged_table.find? (fun p => p.1 == c) with _ | p
  · have h1 : transChar c = c := by unfold transChar; rw [hf]
    rw [h1]
    exact h1
  · have hmem : p ∈ merged_table := List.mem_of_find?_eq_some hf
    have hall := merged_table_output_not_key
    rw [List.all_eq_true] at hall
    have hnone := hall p hmem
    have h1 : transChar c = p.2 := by unfold transChar; rw [hf]
    rcases hg : merged_table.find? (fun q => q.1 == p.2) with _ | q
    · have h2 : transChar p.2 = p.2 := by unfold transChar; rw [hg]
      rw [h1, h2]
    · rw [hg] at hnone
      simp at hnone

lemma mapTransChar_idem (l : List Char) :
    (l.map transChar).map transChar = l.map transChar := by
  induction l with
  | nil => rfl
  | cons c l ih => simp [ih, transChar_idem]

/-- C8: the text normalization `__fullWidthToHalfWith` is idempotent — no
character it outputs is itself remapped by the translation table — and it
maps the full-width string `１２３ＡＢＣ` to `123ABC`. -/
theorem fullWidthToHalfWith_idempotent :
    (∀ s : String, fullWidthToHalfWith (fullWidthToHalfWith s) = fullWidthToHalfWith s)
    ∧ fullWidthToHalfWith "１２３ＡＢＣ" = "123ABC" := by
  constructor
  · intro s
    show String.mk ((s.data.map transChar).map transChar) = String.mk (s.data.map transChar)
    rw [mapTransChar_idem]
  · decide

lemma applyNITEntry_network_id (sec : NITSection) (e : NITTransportStreamEntry)
    (t : TransportStreamInfo) :
    (applyNITEntry sec e t).network_id = (sec.network_id : Int) := by
  unfold applyNITEntry
  dsimp only
  split <;> split <;> rename_i h1 <;>
    first
      | (split <;> split <;> rfl)
      | (revert h1; split <;> intro h1 <;> split <;> split <;> rfl)

/-- C3: for a NIT transport-stream entry processed under `network_id = 4`
(BS), the builder derives `satellite_transponder = (tsid >> 4) & 0x1F`,
`satellite_slot_number = tsid & 0x7`, and the physical channel
`BS{transponder:02}/TS{slot}` from the entry's `transport_stream_id` (the
looked-up `ts_info` carries the entry's id); in particular TSID `0x0711`
yields transponder 17, slot 1 and `"BS17/TS1"`. -/
theorem applyNITEntry_bs_fields (sec : NITSection) (e : NITTransportStreamEntry)
    (t : TransportStreamInfo) (hnid : sec.network_id = 4)
    (htsid : t.transport_stream_id = e.transport_stream_id) :
    (applyNITEntry sec e t).satellite_transponder
        = some ((e.transport_stream_id >>> 4) &&& 0x1F)
    ∧ (applyNITEntry sec e t).satellite_slot_number
        = some (e.transport_stream_id &&& 0x7)
    ∧ (applyNITEntry sec e t).physical_channel
        = bsChannelName ((e.transport_stream_id >>> 4) &&& 0x1F)
            (e.transport_stream_id &&& 0x7)
    ∧ ((0x0711 >>> 4) &&& 0x1F = 17 ∧ 0x0711 &&& 0x7 = 1
        ∧ bsChannelName 17 1 = "BS17/TS1") := by
  refine ⟨?_, ?_, ?_, by decide⟩ <;>
  · unfold applyNITEntry
    rw [hnid, ← htsid]
    norm_num [isTerrestrialNetworkId]
    split <;> split <;> rfl

/-- A concrete BS NIT section, entry and transport-stream record with TSID
`0x0711`, used to evaluate `applyNITEntry_bs_fields`. -/
def bsSecC3 : NITSection :=
  { network_id := 4, networkNameDescriptors := [], transport_streams := [] }

/-- The concrete NIT entry with TSID `0x0711`. -/
def bsEntryC3 : NITTransportStreamEntry :=
  { transport_stream_id := 0x0711, tsInformationDescriptors := [],
    partialReceptionDescriptors := [], satelliteDeliveryDescriptors := [] }

/-- The concrete looked-up `ts_info` for TSID `0x0711`. -/
def bsTSC3 : TransportStreamInfo :=
  { transport_stream_id := 0x0711 }

/-- C3 witness: `applyNITEntry_bs_fields` evaluated on a concrete BS NIT
entry with TSID `0x0711` gives transponder 17, slot 1 and `"BS17/TS1"`. -/
theorem applyNITEntry_bs_fields_witness :
    (bsSecC3.network_id = 4
      ∧ bsTSC3.transport_stream_id = bsEntryC3.transport_stream_id)
    ∧ (applyNITEntry bsSecC3 bsEntryC3 bsTSC3).satellite_transponder = some 17
    ∧ (applyNITEntry bsSecC3 bsEntryC3 bsTSC3).satellite_slot_number = some 1
    ∧ (applyNITEntry bsSecC3 bsEntryC3 bsTSC3).physical_channel = "BS17/TS1" := by
  have h := applyNITEntry_bs_fields bsSecC3 bsEntryC3 bsTSC3 (by decide) (by decide)
  refine ⟨⟨by decide, by decide⟩, ?_, ?_, ?_⟩
  · rw [h.1]; decide
  · rw [h.2.1]; decide
  · rw [h.2.2.1]; decide

lemma and_seven_eq_mod (n : Nat) : n &&& 0b111 = n % 8 := by
  have h := Nat.and_pow_two_sub_one_eq_mod n 3
  norm_num at h
  exact h

/-- Equality on `Except` is decidable; used to evaluate the embedding's
fallible operations on concrete inputs. -/
instance exceptDecEq {ε α : Type} [DecidableEq ε] [DecidableEq α] :
    DecidableEq (Except ε α) := fun a b =>
  match a, b with
  | .ok x, .ok y =>
    if h : x = y then .isTrue (by rw [h])
    else .isFalse (by intro hc; injection hc; exact h (by assumption))
  | .error x, .error y =>
    if h : x = y then .isTrue (by rw [h])
    else .isFalse (by intro hc; injection hc; exact h (by assumption))
  | .ok _, .error _ => .isFalse (fun hc => Except.noConfusion hc)
  | .error _, .ok _ => .isFalse (fun hc => Except.noConfusion hc)

lemma and_mask_shift_eq (n : Nat) : (n &&& 0b0000000110000000) >>> 7 = n / 128 % 4 := by
  apply Nat.eq_of_testBit_eq
  intro i
  rw [Nat.testBit_shiftRight, Nat.testBit_and]
  have h128 : (128 : Nat) = 2 ^ 7 := by norm_num
  have h4 : (4 : Nat) = 2 ^ 2 := by norm_num
  rw [h128, h4, ← Nat.shiftRight_eq_div_pow, Nat.testBit_mod_two_pow,
    Nat.testBit_shiftRight]
  have hhi : ∀ j, 9 ≤ j → Nat.testBit 0b0000000110000000 j = false := by
    intro j hj
    apply Nat.testBit_lt_two_pow
    calc (0b0000000110000000 : Nat) < 2 ^ 9 := by norm_num
      _ ≤ 2 ^ j := Nat.pow_le_pow_right (by norm_num) hj
  have hmask : Nat.testBit 0b0000000110000000 (7 + i) = decide (i < 2) := by
    by_cases hi : i < 2
    · interval_cases i <;> decide
    · rw [hhi (7 + i) (by omega)]
      simp [hi]
  rw [hmask]
  exact Bool.and_comm _ _

/-- C5: the channel-number pass.  For a terrestrial transport stream (network
id in the reserved terrestrial range) with remote-control key `key`, every
service's `channel_number` becomes `category*200 + key*10 + (index+1)` zero-
padded to three digits, where `category` is the 2-bit field at bits 7-8 of
`service_id` (`service_id / 128 % 4`) and `index` the 3-bit field at bits 0-2
(`service_id % 8`); for a satellite stream it is `service_id` zero-padded to
three digits.  In particular category 1, index 2, key 5 gives `"253"`. -/
theorem computeChannelNumbers_formula (t t2 : TransportStreamInfo) (key : Nat)
    (hterr : isTerrestrialNetworkId t.network_id = true)
    (hkey : t.remote_control_key_id = some key)
    (hsat : isTerrestrialNetworkId t2.network_id = false) :
    computeChannelNumbersTS t = .ok
      { t with services := t.services.map (fun s =>
          { s with channel_number :=
              padZero 3 ((s.service_id / 128 % 4) * 200 + key * 10
                + (s.service_id % 8 + 1)) }) }
    ∧ computeChannelNumbersTS t2 = .ok
        { t2 with services := t2.services.map (fun s =>
            { s with channel_number := padZero 3 s.service_id }) }
    ∧ (computeServiceChannel 5 (ServiceInfo.create 0x82)).channel_number = "253" := by
  have hmap : ∀ svs : List ServiceInfo, svs.map (computeServiceChannel key)
      = svs.map (fun s =>
          { s with channel_number :=
              padZero 3 ((s.service_id / 128 % 4) * 200 + key * 10
                + (s.service_id % 8 + 1)) }) := by
    intro svs
    apply List.map_congr_left
    intro s _
    unfold computeServiceChannel
    rw [and_mask_shift_eq, and_seven_eq_mod]
  refine ⟨?_, ?_, by decide⟩
  · obtain ⟨pc, tsid, nid, nn, rck, sf, st, ss, svcs⟩ := t
    simp only at hterr hkey
    subst hkey
    unfold computeChannelNumbersTS
    simp only [hterr, if_true]
    cases svcs with
    | nil => simp
    | cons s rest => simp [hmap]
  · unfold computeChannelNumbersTS
    rw [hsat]
    simp

/-- C5 witness: the formula evaluated on a concrete terrestrial stream with
`remote_control_key_id = 5` and a service whose category bits are 1 and index
bits are 2 (`service_id = 0x82`), and on a concrete BS stream. -/
theorem computeChannelNumbers_formula_witness :
    (isTerrestrialNetworkId
        ({ transport_stream_id := 100, network_id := 0x7880,
           remote_control_key_id := some 5,
           services := [ServiceInfo.create 0x82] } : TransportStreamInfo).network_id = true
      ∧ ({ transport_stream_id := 100, network_id := 0x7880,
           remote_control_key_id := some 5,
           services := [ServiceInfo.create 0x82] } : TransportStreamInfo).remote_control_key_id
          = some 5
      ∧ isTerrestrialNetworkId
          ({ transport_stream_id := 200, network_id := 4 } : TransportStreamInfo).network_id
            = false)
    ∧ (computeChannelNumbersTS
        { transport_stream_id := 100, network_id := 0x7880,
          remote_control_key_id := some 5,
          services := [ServiceInfo.create 0x82] }).map
            (fun t => t.services.map (fun s => s.channel_number)) = .ok ["253"]
    ∧ (computeChannelNumbersTS
        { transport_stream_id := 200, network_id := 4 }).map
            (fun t => t.services.map (fun s => s.channel_number)) = .ok [] := by
  have h := computeChannelNumbers_formula
    { transport_stream_id := 100, network_id := 0x7880,
      remote_control_key_id := some 5, services := [ServiceInfo.create 0x82] }
    { transport_stream_id := 200, network_id := 4 } 5
    (by decide) (by decide) (by decide)
  refine ⟨⟨by decide, by decide, by decide⟩, ?_, ?_⟩
  · rw [h.1]; decide
  · rw [h.2.1]; decide

instance bsKeyRelTotal :
    IsTotal TransportStreamInfo (fun a b => bsSortKey a ≤ bsSortKey b) :=
  ⟨fun a b => le_total _ _⟩

instance bsKeyRelTrans :
    IsTrans TransportStreamInfo (fun a b => bsSortKey a ≤ bsSortKey b) :=
  ⟨fun _ _ _ h1 h2 => le_trans h1 h2⟩

/-- A concrete BS transport stream on transponder 1 with the given raw slot,
as the NIT pass would have produced it. -/
def bsTSraw (tsid slot : Nat) : TransportStreamInfo :=
  { transport_stream_id := tsid, network_id := 4,
    satellite_transponder := some 1, satellite_slot_number := some slot,
    physical_channel := bsChannelName 1 slot }

/-- C4: BS slot renumbering.  For a group of BS entries sharing one
transponder whose raw slots are all set: (1) the renumbering assigns exactly
the dense slot sequence `0..n-1`, in the order of the group sorted by raw
slot; (2) that sort order is non-decreasing in the raw slot numbers (so the
k-th smallest raw slot receives new slot k, and Python's stable sort keeps
the original relative order of equal keys); (3) each matched entry's
`physical_channel` is regenerated from its transponder and new slot; and (4)
raw slots `[0,1,3,5]` on one transponder become exactly `[0,1,2,3]` with the
original entry order preserved and channels regenerated. -/
theorem renumberBS_dense_slots (g : List TransportStreamInfo)
    (pairs : List (Nat × Nat)) (t : TransportStreamInfo) (tp ns : Nat)
    (hall : ∀ u ∈ g, u.satellite_slot_number.isSome = true)
    (htp : t.satellite_transponder = some tp)
    (hlk : lookupPair pairs t.transport_stream_id = some ns) :
    (renumberPairs g).map Prod.snd = List.range g.length
    ∧ List.Pairwise
        (fun a b => a.satellite_slot_number.getD 0 ≤ b.satellite_slot_number.getD 0)
        (bsSortGroup g)
    ∧ applyNewSlot pairs t
        = { t with satellite_slot_number := some ns,
                   physical_channel := bsChannelName tp ns }
    ∧ renumberBS [bsTSraw 0x4010 0, bsTSraw 0x4011 1, bsTSraw 0x4013 3, bsTSraw 0x4015 5]
        = [bsTSraw 0x4010 0, bsTSraw 0x4011 1, bsTSraw 0x4013 2, bsTSraw 0x4015 3] := by
  refine ⟨?_, ?_, ?_, by decide⟩
  · unfold renumberPairs
    have hcount : (g.filter (fun t => t.satellite_slot_number.isSome)).length
        = g.length := by
      rw [List.filter_eq_self.mpr hall]
    have hlen : (bsSortGroup g).length = g.length :=
      (List.perm_insertionSort _ g).length_eq
    rw [hcount, List.map_map]
    rw [show (Prod.snd ∘ fun p : TransportStreamInfo × Nat =>
      (p.1.transport_stream_id, p.2)) = Prod.snd from rfl]
    exact List.map_snd_zip _ _ (by rw [List.length_range, hlen])
  · have hs := List.sorted_insertionSort
      (fun a b => bsSortKey a ≤ bsSortKey b) g
    refine List.Pairwise.imp_of_mem (fun {a b} ha hb hk => ?_) hs
    have ha2 : a ∈ g := (List.perm_insertionSort _ g).mem_iff.mp ha
    have hb2 : b ∈ g := (List.perm_insertionSort _ g).mem_iff.mp hb
    have hsa := hall a ha2
    have hsb := hall b hb2
    rcases hoa : a.satellite_slot_number with _ | sa
    · rw [hoa] at hsa; simp at hsa
    rcases hob : b.satellite_slot_number with _ | sb
    · rw [hob] at hsb; simp at hsb
    simp only [Option.getD_some]
    unfold bsSortKey at hk
    rw [hoa, hob] at hk
    dsimp only at hk
    split_ifs at hk <;> omega
  · unfold applyNewSlot
    rw [htp, hlk]

/-- The raw-slot `[0,1,3,5]` group on one transponder. -/
def gC4 : List TransportStreamInfo :=
  [bsTSraw 0x4010 0, bsTSraw 0x4011 1, bsTSraw 0x4013 3, bsTSraw 0x4015 5]

/-- C4 witness: `renumberBS_dense_slots` evaluated on the `[0,1,3,5]` group;
the entry with raw slot 3 receives new slot 2 and channel `BS01/TS2`. -/
theorem renumberBS_dense_slots_witness :
    ((bsTSraw 0x4013 3).satellite_transponder = some 1
      ∧ lookupPair (renumberPairs gC4) (bsTSraw 0x4013 3).transport_stream_id = some 2)
    ∧ (renumberPairs gC4).map Prod.snd = List.range gC4.length
    ∧ applyNewSlot (renumberPairs gC4) (bsTSraw 0x4013 3)
        = { bsTSraw 0x4013 3 with
            satellite_slot_number := some 2,
            physical_channel := bsChannelName 1 2 } := by
  have h := renumberBS_dense_slots gC4 (renumberPairs gC4) (bsTSraw 0x4013 3) 1 2
    (by decide) (by decide) (by decide)
  exact ⟨⟨by decide, by decide⟩, h.1, h.2.2.1⟩

/-- C6: classification of a non-zero helper exit (`tuner.py` 286-306).  When
the polling loop exited other than through the timeout branch and the process
returned a non-zero code, the call raises `TunerOpeningError` — additionally
setting `_last_tuner_opening_failed` — exactly when the parsed `ERROR: <msg>`
diagnostic is one of the device-open failure messages (absent / already in
use / busy / unsupported ioctl / `Cannot open the device.` prefix), and
raises `TunerTuningError` for every other non-zero exit. -/
theorem tune_nonzero_exit_classification (flagBefore : Bool)
    (exited arrived : Nat → Bool) (timeoutTicks fuel : Nat) (rc : Int)
    (stderrText : String) (stdoutLen : Nat) (i c : Nat)
    (hloop : tuneLoop exited arrived timeoutTicks fuel 0 0 = some (i, c))
    (hnotto : (exited i || arrived i) = true)
    (hrc : rc ≠ 0) :
    (classifyIsOpening (parsedErrorMessage stderrText) = true →
      tuneModel flagBefore exited arrived timeoutTicks fuel rc stderrText stdoutLen
        = { outcome := .openingFailed (parsedErrorMessage stderrText),
            lastTunerOpeningFailed := true, sigintSent := false,
            waitedForExit := true })
    ∧ (classifyIsOpening (parsedErrorMessage stderrText) = false →
      tuneModel flagBefore exited arrived timeoutTicks fuel rc stderrText stdoutLen
        = { outcome := .tuningFailed (parsedErrorMessage stderrText),
            lastTunerOpeningFailed := false, sigintSent := false,
            waitedForExit := true }) := by
  have hbranch : (!exited i && !arrived i) = false := by
    rcases Bool.or_eq_true_iff.mp hnotto with h | h <;> simp [h]
  constructor <;> intro hcl <;>
  · unfold tuneModel
    rw [hloop]
    simp only [hbranch, Bool.false_eq_true, if_false, hrc, if_true, hcl,
      ite_true, ite_false, ne_eq, not_false_eq_true]

/-- C6 witness: a helper that exits immediately with code 1 and diagnostic
`ERROR: The tuner device is busy.` raises `TunerOpeningError` (not
`TunerTuningError`) and sets the flag. -/
theorem tune_nonzero_exit_classification_witness :
    (tuneLoop (fun _ => true) (fun _ => false) 700 1000 0 0 = some (0, 0)
      ∧ ((fun (_ : Nat) => true) 0 || (fun (_ : Nat) => false) 0) = true
      ∧ (1 : Int) ≠ 0
      ∧ classifyIsOpening (parsedErrorMessage "ERROR: The tuner device is busy.") = true)
    ∧ tuneModel false (fun _ => true) (fun _ => false) 700 1000 1
        "ERROR: The tuner device is busy." 0
        = { outcome := .openingFailed "The tuner device is busy.",
            lastTunerOpeningFailed := true, sigintSent := false,
            waitedForExit := true } := by
  have h := tune_nonzero_exit_classification false (fun _ => true) (fun _ => false)
    700 1000 1 "ERROR: The tuner device is busy." 0 0 0
    (by decide) (by decide) (by decide)
  refine ⟨⟨by decide, by decide, by decide, by decide⟩, ?_⟩
  have h2 := h.1 (by decide)
  rw [h2]
  decide

lemma missedTicks_succ (arrived : Nat → Bool) (i : Nat) :
    missedTicks arrived (i + 1)
      = missedTicks arrived i + (if arrived i then 0 else 1) := by
  unfold missedTicks
  rw [List.range_succ, List.filter_append, List.length_append]
  cases h : arrived i <;> simp [h]

lemma tuneLoop_count_invariant (exited arrived : Nat → Bool)
    (timeoutTicks : Nat) :
    ∀ fuel iter count i c, count = missedTicks arrived iter →
      tuneLoop exited arrived timeoutTicks fuel iter count = some (i, c) →
      c = missedTicks arrived i := by
  intro fuel
  induction fuel with
  | zero => intro iter count i c _ h; simp [tuneLoop] at h
  | succ fuel ih =>
    intro iter count i c hcount h
    unfold tuneLoop at h
    by_cases hcond : (exited iter || decide (timeoutTicks ≤ count)) = true
    · rw [if_pos hcond] at h
      injection h with h
      injection h with h1 h2
      rw [← h1, ← h2, hcount]
    · rw [if_neg hcond] at h
      refine ih (iter + 1) _ i c ?_ h
      rw [missedTicks_succ, hcount]
      cases ha : arrived iter <;> simp [ha]

lemma tuneLoop_allfalse (exited arrived : Nat → Bool) (timeoutTicks : Nat)
    (hq : ∀ j, j ≤ timeoutTicks → exited j = false ∧ arrived j = false) :
    ∀ fuel iter, iter ≤ timeoutTicks → timeoutTicks - iter < fuel →
      tuneLoop exited arrived timeoutTicks fuel iter iter
        = some (timeoutTicks, timeoutTicks) := by
  intro fuel
  induction fuel with
  | zero => intro iter _ h2; omega
  | succ fuel ih =>
    intro iter h1 h2
    unfold tuneLoop
    rcases Nat.lt_or_ge iter timeoutTicks with hlt | hge
    · rw [if_neg, (hq iter h1).2]
      · exact ih (iter + 1) (by omega) (by omega)
      · simp [(hq iter h1).1]
        omega
    · have : iter = timeoutTicks := by omega
      subst this
      rw [if_pos]
      simp

/-- C7: the tuning-timeout behavior of `tune` (`tuner.py` 265-279).
(1) If no data byte arrives and the process keeps running through the whole
timeout window, the call sends SIGINT to the helper, waits for it to exit,
and raises the timeout `TunerTuningError`.  (2) The timeout clock counts
exactly the polling iterations during which no data had yet arrived (it is
frozen from the first arrival on).  (3) Under monotone arrival (once
`is_stdout_arrived` is set it stays set), a call whose data arrived at or
before the loop's exit iteration never raises the timeout error. -/
theorem tune_timeout_behavior (flagBefore : Bool) (exited arrived : Nat → Bool)
    (timeoutTicks fuel : Nat) (rc : Int) (stderrText : String)
    (stdoutLen : Nat) :
    ((∀ j, j ≤ timeoutTicks → exited j = false ∧ arrived j = false) →
      timeoutTicks < fuel →
      tuneModel flagBefore exited arrived timeoutTicks fuel rc stderrText stdoutLen
        = { outcome := .timedOut, lastTunerOpeningFailed := false,
            sigintSent := true, waitedForExit := true })
    ∧ (∀ i c, tuneLoop exited arrived timeoutTicks fuel 0 0 = some (i, c) →
        c = missedTicks arrived i)
    ∧ ((∀ j k, j ≤ k → arrived j = true → arrived k = true) →
       ∀ i c j, tuneLoop exited arrived timeoutTicks fuel 0 0 = some (i, c) →
         j ≤ i → arrived j = true →
         (tuneModel flagBefore exited arrived timeoutTicks fuel rc stderrText
            stdoutLen).outcome ≠ .timedOut) := by
  refine ⟨?_, ?_, ?_⟩
  · intro hq hfuel
    have hloop := tuneLoop_allfalse exited arrived timeoutTicks hq fuel 0
      (Nat.zero_le _) (by omega)
    unfold tuneModel
    rw [hloop]
    dsimp only
    rw [(hq timeoutTicks le_rfl).1, (hq timeoutTicks le_rfl).2]
    simp
  · intro i c hloop
    exact tuneLoop_count_invariant exited arrived timeoutTicks fuel 0 0 i c
      (by simp [missedTicks]) hloop
  · intro hmono i c j hloop hji harr
    have hi : arrived i = true := hmono j i hji harr
    unfold tuneModel
    rw [hloop]
    dsimp only
    have hcond : (!exited i && !arrived i) = false := by simp [hi]
    rw [hcond]
    simp only [Bool.false_eq_true, if_false]
    split_ifs <;> simp

/-- C7 witness: `tune_timeout_behavior` at a concrete all-silent run with a
2-tick timeout window and fuel 10. -/
theorem tune_timeout_behavior_witness :
    ((∀ j, j ≤ 2 → (fun (_ : Nat) => false) j = false
        ∧ (fun (_ : Nat) => false) j = false)
      ∧ 2 < 10)
    ∧ tuneModel false (fun _ => false) (fun _ => false) 2 10 0 "" 0
        = { outcome := .timedOut, lastTunerOpeningFailed := false,
            sigintSent := true, waitedForExit := true } := by
  have h := (tune_timeout_behavior false (fun _ => false) (fun _ => false)
    2 10 0 "" 0).1 (by intro j _; exact ⟨rfl, rfl⟩) (by omega)
  exact ⟨⟨by intro j _; exact ⟨rfl, rfl⟩, by omega⟩, h⟩

/-- C10: every `tune` call resets `_last_tuner_opening_failed` to `False` on
entry (`tuner.py` line 227) before doing anything else, so the result of a
call does not depend on the flag value left by an earlier call, and after a
completed call the flag is `True` exactly when that call raised
`TunerOpeningError`. -/
theorem tune_flag_reset (b1 b2 : Bool) (exited arrived : Nat → Bool)
    (timeoutTicks fuel : Nat) (rc : Int) (stderrText : String)
    (stdoutLen : Nat) :
    tuneModel b1 exited arrived timeoutTicks fuel rc stderrText stdoutLen
      = tuneModel b2 exited arrived timeoutTicks fuel rc stderrText stdoutLen
    ∧ ((tuneModel b1 exited arrived timeoutTicks fuel rc stderrText
          stdoutLen).lastTunerOpeningFailed = true
        ↔ ∃ msg, (tuneModel b1 exited arrived timeoutTicks fuel rc stderrText
            stdoutLen).outcome = .openingFailed msg) := by
  constructor
  · rfl
  · unfold tuneModel
    rcases tuneLoop exited arrived timeoutTicks fuel 0 0 with _ | ⟨i, c⟩
    · simp
    · dsimp only
      split
      · simp
      · split
        · split
          · simp
          · simp
        · split
          · simp
          · simp

/-! ### Key-preservation and uniqueness of the analyzer state -/

lemma applyNITEntry_tsid (sec : NITSection) (e : NITTransportStreamEntry)
    (t : TransportStreamInfo) :
    (applyNITEntry sec e t).transport_stream_id = t.transport_stream_id := by
  unfold applyNITEntry
  dsimp only
  split <;> split <;> rename_i h1 <;>
    first
      | (split <;> split <;> rfl)
      | (revert h1; split <;> intro h1 <;> split <;> split <;> rfl)

lemma tsidsOf_upsertTS (m : List TransportStreamInfo) (tsid : Nat)
    (f : TransportStreamInfo → TransportStreamInfo)
    (hf : ∀ t, (f t).transport_stream_id = t.transport_stream_id) :
    tsidsOf (upsertTS m tsid f)
      = if tsid ∈ tsidsOf m then tsidsOf m else tsidsOf m ++ [tsid] := by
  unfold tsidsOf
  induction m with
  | nil =>
    simp [upsertTS, hf, TransportStreamInfo.create]
  | cons t rest ih =>
    by_cases h : t.transport_stream_id = tsid
    · simp [upsertTS, h, hf]
    · simp only [upsertTS, if_neg h, List.map_cons, List.mem_cons, ih]
      by_cases h2 : tsid ∈ rest.map (fun t => t.transport_stream_id)
      · simp [h2, Ne.symm h]
      · simp [h2, Ne.symm h]

lemma nodup_upsertTS (m : List TransportStreamInfo) (tsid : Nat)
    (f : TransportStreamInfo → TransportStreamInfo)
    (hf : ∀ t, (f t).transport_stream_id = t.transport_stream_id)
    (h : (tsidsOf m).Nodup) : (tsidsOf (upsertTS m tsid f)).Nodup := by
  rw [tsidsOf_upsertTS m tsid f hf]
  by_cases hmem : tsid ∈ tsidsOf m
  · simp [hmem, h]
  · simp [hmem, List.nodup_append, h]

lemma nodup_ingestNITSection (sec : NITSection) :
    ∀ m, (tsidsOf m).Nodup → (tsidsOf (ingestNITSection m sec)).Nodup := by
  unfold ingestNITSection
  induction sec.transport_streams with
  | nil => intro m h; exact h
  | cons e rest ih =>
    intro m h
    rw [List.foldl_cons]
    exact ih _ (nodup_upsertTS m e.transport_stream_id _
      (applyNITEntry_tsid sec e) h)

lemma nodup_nit_fold (nits : List NITSection) :
    ∀ m, (tsidsOf m).Nodup → (tsidsOf (nits.foldl ingestNITSection m)).Nodup := by
  induction nits with
  | nil => intro m h; exact h
  | cons sec rest ih =>
    intro m h
    rw [List.foldl_cons]
    exact ih _ (nodup_ingestNITSection sec m h)

lemma applyNewSlot_tsid (pairs : List (Nat × Nat)) (t : TransportStreamInfo) :
    (applyNewSlot pairs t).transport_stream_id = t.transport_stream_id := by
  unfold applyNewSlot
  split <;> rfl

lemma tsidsOf_renumberBS (m : List TransportStreamInfo) :
    tsidsOf (renumberBS m) = tsidsOf m := by
  unfold renumberBS tsidsOf
  rw [List.map_map]
  exact List.map_congr_left (fun t _ => applyNewSlot_tsid _ t)

lemma finalizeChannels_perm (tuned : String) (m m' : List TransportStreamInfo)
    (h : finalizeChannels tuned m = .ok m') :
    List.Perm (tsidsOf m') (tsidsOf m) := by
  unfold finalizeChannels at h
  split at h
  · rcases m with _ | ⟨t, rest⟩
    · simp at h
    · rcases rest with _ | ⟨u, rest2⟩
      · injection h with h
        rw [← h]
        rfl
      · simp at h
  · injection h with h
    rw [← h]
    exact List.Perm.map _ (List.perm_insertionSort _ m)

lemma tsidsOf_updateTSIfPresent (m : List TransportStreamInfo) (k : Nat)
    (f : TransportStreamInfo → TransportStreamInfo)
    (hf : ∀ t, (f t).transport_stream_id = t.transport_stream_id) :
    tsidsOf (updateTSIfPresent m k f) = tsidsOf m := by
  unfold tsidsOf
  induction m with
  | nil => rfl
  | cons t rest ih =>
    by_cases h : t.transport_stream_id = k
    · simp [updateTSIfPresent, h, hf]
    · simp only [updateTSIfPresent, if_neg h, List.map_cons, ih]

lemma tsidsOf_sdt_inner_fold (k : Nat) (svcs : List SDTServiceEntry)
    (g : SDTServiceEntry → TransportStreamInfo → TransportStreamInfo)
    (hg : ∀ e t, (g e t).transport_stream_id = t.transport_stream_id) :
    ∀ m, tsidsOf (svcs.foldl (fun acc e => updateTSIfPresent acc k (g e)) m)
      = tsidsOf m := by
  induction svcs with
  | nil => intro m; rfl
  | cons e rest ih =>
    intro m
    rw [List.foldl_cons, ih, tsidsOf_updateTSIfPresent _ _ _ (hg e)]

lemma tsidsOf_ingestSDTSection (m : List TransportStreamInfo) (sec : SDTSection) :
    tsidsOf (ingestSDTSection m sec) = tsidsOf m := by
  unfold ingestSDTSection
  dsimp only
  rw [tsidsOf_updateTSIfPresent _ sec.transport_stream_id
      (fun t => { t with services := sortServices t.services }) (fun t => rfl),
    tsidsOf_sdt_inner_fold sec.transport_stream_id sec.services
      (fun e t => { t with services := applySDTService t.services e })
      (fun e t => rfl) m]

lemma tsidsOf_sdt_fold (sdts : List SDTSection) :
    ∀ m, tsidsOf (sdts.foldl ingestSDTSection m) = tsidsOf m := by
  induction sdts with
  | nil => intro m; rfl
  | cons sec rest ih =>
    intro m
    rw [List.foldl_cons, ih, tsidsOf_ingestSDTSection]

lemma computeChannelNumbersTS_fields (t t' : TransportStreamInfo)
    (h : computeChannelNumbersTS t = .ok t') :
    t'.transport_stream_id = t.transport_stream_id
    ∧ t'.services.map (fun s => s.service_id)
        = t.services.map (fun s => s.service_id) := by
  obtain ⟨pc, tsid, nid, nn, rck, sf, st, ss, svcs⟩ := t
  unfold computeChannelNumbersTS at h
  dsimp only at h
  split at h
  · cases svcs with
    | nil =>
      injection h with h
      rw [← h]
      exact ⟨rfl, rfl⟩
    | cons s rest =>
      cases rck with
      | none => simp at h
      | some key =>
        injection h with h
        rw [← h]
        refine ⟨rfl, ?_⟩
        dsimp only
        rw [List.map_map]
        try exact List.map_congr_left (fun u _ => rfl)
  · injection h with h
    rw [← h]
    refine ⟨rfl, ?_⟩
    dsimp only
    rw [List.map_map]
    try exact List.map_congr_left (fun u _ => rfl)

lemma computeChannelNumbers_mem :
    ∀ (m m' : List TransportStreamInfo), computeChannelNumbers m = .ok m' →
      (∀ t' ∈ m', ∃ t ∈ m, computeChannelNumbersTS t = .ok t')
      ∧ tsidsOf m' = tsidsOf m := by
  intro m
  induction m with
  | nil =>
    intro m' h
    injection h with h
    rw [← h]
    exact ⟨fun t' ht' => absurd ht' (List.not_mem_nil t'), rfl⟩
  | cons t rest ih =>
    intro m' h
    unfold computeChannelNumbers at h
    rcases h1 : computeChannelNumbersTS t with e | t' <;> rw [h1] at h
    · simp at h
    · rcases h2 : computeChannelNumbers rest with e | rest' <;> rw [h2] at h
      · simp at h
      · injection h with h
        rw [← h]
        obtain ⟨ihmem, ihtsids⟩ := ih rest' h2
        constructor
        · intro u hu
          rcases List.mem_cons.mp hu with hu | hu
          · exact ⟨t, List.mem_cons_self t rest, hu ▸ h1⟩
          · obtain ⟨v, hv, hv2⟩ := ihmem u hu
            exact ⟨v, List.mem_cons_of_mem t hv, hv2⟩
        · show tsidsOf (t' :: rest') = tsidsOf (t :: rest)
          have h3 : List.map (fun u => u.transport_stream_id) rest'
              = List.map (fun u => u.transport_stream_id) rest := ihtsids
          unfold tsidsOf
          rw [List.map_cons, List.map_cons,
            (computeChannelNumbersTS_fields t t' h1).1, h3]

lemma upsertService_nil (sid : Nat) (f : ServiceInfo → ServiceInfo) :
    upsertService [] sid f = [f (ServiceInfo.create sid)] := rfl

lemma upsertService_cons (s : ServiceInfo) (rest : List ServiceInfo) (sid : Nat)
    (f : ServiceInfo → ServiceInfo) :
    upsertService (s :: rest) sid f
      = if s.service_id = sid then f s :: rest
        else s :: upsertService rest sid f := rfl

lemma applyServiceFields_sid (e : SDTServiceEntry) (s : ServiceInfo) :
    (applyServiceFields e s).service_id = s.service_id := by
  unfold applyServiceFields
  cases e.serviceDescriptors.head? <;> rfl

lemma applyServiceFields_idem (e : SDTServiceEntry) (s : ServiceInfo) :
    applyServiceFields e (applyServiceFields e s) = applyServiceFields e s := by
  unfold applyServiceFields
  cases e.serviceDescriptors.head? <;> rfl

lemma upsertService_ids_of_mem (svs : List ServiceInfo) (sid : Nat)
    (f : ServiceInfo → ServiceInfo)
    (hf : ∀ s, (f s).service_id = s.service_id)
    (hmem : ∃ s ∈ svs, s.service_id = sid) :
    (upsertService svs sid f).map (fun s => s.service_id)
      = svs.map (fun s => s.service_id) := by
  induction svs with
  | nil =>
    obtain ⟨s, hs, _⟩ := hmem
    exact absurd hs (List.not_mem_nil s)
  | cons s rest ih =>
    by_cases h : s.service_id = sid
    · simp [upsertService_cons, h, hf]
    · rw [upsertService_cons, if_neg h, List.map_cons, List.map_cons]
      congr 1
      apply ih
      obtain ⟨u, hu, hu2⟩ := hmem
      rcases List.mem_cons.mp hu with rfl | hu
      · exact absurd hu2 h
      · exact ⟨u, hu, hu2⟩

lemma upsertService_idem (sid : Nat) (f : ServiceInfo → ServiceInfo)
    (hf : ∀ s, (f s).service_id = s.service_id)
    (hff : ∀ s, f (f s) = f s) :
    ∀ svs, upsertService (upsertService svs sid f) sid f
      = upsertService svs sid f := by
  intro svs
  induction svs with
  | nil =>
    rw [upsertService_nil, upsertService_cons,
      if_pos ((hf _).trans (show (ServiceInfo.create sid).service_id = sid from rfl)),
      hff]
  | cons s rest ih =>
    by_cases h : s.service_id = sid
    · rw [upsertService_cons, if_pos h, upsertService_cons, if_pos ((hf s).trans h),
        hff]
    · rw [upsertService_cons, if_neg h, upsertService_cons, if_neg h, ih]

/-- C1: every `analyze` result has pairwise distinct `transport_stream_id`s
(the state is a dict keyed by TSID, and every later pass preserves or
permutes its key list), and SDT service ingestion for an already-known
`service_id` overwrites in place — the `service_id` column is unchanged, so
no second entry with that id is ever appended — and applying the same SDT
service record twice equals applying it once. -/
theorem analyze_unique_tsids_sdt_idempotent
    (nits : List NITSection) (sdts : List SDTSection) (tuned : String)
    (m : List TransportStreamInfo) (svs : List ServiceInfo) (e : SDTServiceEntry)
    (h : analyze nits sdts tuned = .ok m) :
    (tsidsOf m).Nodup
    ∧ ((∃ s ∈ svs, s.service_id = e.service_id) →
        (applySDTService svs e).map (fun s => s.service_id)
          = svs.map (fun s => s.service_id))
    ∧ applySDTService (applySDTService svs e) e = applySDTService svs e := by
  refine ⟨?_, ?_, ?_⟩
  · unfold analyze at h
    dsimp only at h
    rcases hfin : finalizeChannels tuned (renumberBS (nits.foldl ingestNITSection []))
      with err | m3 <;> rw [hfin] at h
    · simp at h
    · have h1 : (tsidsOf (nits.foldl ingestNITSection [])).Nodup :=
        nodup_nit_fold nits [] (by simp [tsidsOf])
      have h2 : (tsidsOf (renumberBS (nits.foldl ingestNITSection []))).Nodup := by
        rw [tsidsOf_renumberBS]
        exact h1
      have h3 : (tsidsOf m3).Nodup :=
        ((finalizeChannels_perm _ _ _ hfin).nodup_iff).mpr h2
      have h4 : tsidsOf (sdts.foldl ingestSDTSection m3) = tsidsOf m3 :=
        tsidsOf_sdt_fold sdts m3
      have h5 := (computeChannelNumbers_mem _ m h).2
      rw [h5, h4]
      exact h3
  · intro hmem
    exact upsertService_ids_of_mem svs e.service_id _ (applyServiceFields_sid e) hmem
  · exact upsertService_idem e.service_id _ (applyServiceFields_sid e)
      (applyServiceFields_idem e) svs

/-- A concrete SDT service record used to evaluate the C1 theorem. -/
def sdtEntryC1 : SDTServiceEntry :=
  { service_id := 5, free_CA_mode := true, serviceDescriptors := [] }

/-- C1 witness: the theorem evaluated on the empty scan (whose analysis
succeeds with an empty result) and a one-service list already containing the
record's `service_id`. -/
theorem analyze_unique_tsids_sdt_idempotent_witness :
    analyze [] [] "BS" = .ok []
    ∧ (tsidsOf ([] : List TransportStreamInfo)).Nodup
    ∧ (applySDTService [ServiceInfo.create 5] sdtEntryC1).map (fun s => s.service_id)
        = [ServiceInfo.create 5].map (fun s => s.service_id)
    ∧ applySDTService (applySDTService [ServiceInfo.create 5] sdtEntryC1) sdtEntryC1
        = applySDTService [ServiceInfo.create 5] sdtEntryC1 := by
  have h := analyze_unique_tsids_sdt_idempotent [] [] "BS" []
    [ServiceInfo.create 5] sdtEntryC1 (by decide)
  exact ⟨by decide, h.1, h.2.1 ⟨ServiceInfo.create 5, by decide, by decide⟩, h.2.2⟩

instance svcRelTotal :
    IsTotal ServiceInfo (fun a b => a.service_id ≤ b.service_id) :=
  ⟨fun _ _ => Nat.le_total _ _⟩

instance svcRelTrans :
    IsTrans ServiceInfo (fun a b => a.service_id ≤ b.service_id) :=
  ⟨fun _ _ _ => Nat.le_trans⟩

lemma sortServices_sorted_ids (svs : List ServiceInfo) :
    List.Sorted (fun a b : Nat => a ≤ b)
      ((sortServices svs).map (fun s => s.service_id)) := by
  have h := List.sorted_insertionSort
    (fun a b : ServiceInfo => a.service_id ≤ b.service_id) svs
  exact List.Pairwise.map _ (fun a b hab => hab) h

lemma updateTSIfPresent_nil (k : Nat) (f : TransportStreamInfo → TransportStreamInfo) :
    updateTSIfPresent [] k f = [] := rfl

lemma updateTSIfPresent_cons (t : TransportStreamInfo)
    (rest : List TransportStreamInfo) (k : Nat)
    (f : TransportStreamInfo → TransportStreamInfo) :
    updateTSIfPresent (t :: rest) k f
      = if t.transport_stream_id = k then f t :: rest
        else t :: updateTSIfPresent rest k f := rfl

lemma mem_updateTSIfPresent_ne (k : Nat)
    (f : TransportStreamInfo → TransportStreamInfo)
    (hf : ∀ t, (f t).transport_stream_id = t.transport_stream_id) :
    ∀ m t', t' ∈ updateTSIfPresent m k f → t'.transport_stream_id ≠ k →
      t' ∈ m := by
  intro m
  induction m with
  | nil => intro t' ht _; exact ht
  | cons t rest ih =>
    intro t' ht hne
    rw [updateTSIfPresent_cons] at ht
    by_cases h : t.transport_stream_id = k
    · rw [if_pos h] at ht
      rcases List.mem_cons.mp ht with rfl | ht
      · exact absurd ((hf t).trans h) hne
      · exact List.mem_cons_of_mem t ht
    · rw [if_neg h] at ht
      rcases List.mem_cons.mp ht with rfl | ht
      · exact List.mem_cons_self _ _
      · exact List.mem_cons_of_mem t (ih t' ht hne)

lemma mem_updateTSIfPresent_eq (k : Nat)
    (f : TransportStreamInfo → TransportStreamInfo)
    (hf : ∀ t, (f t).transport_stream_id = t.transport_stream_id) :
    ∀ m, (tsidsOf m).Nodup →
      ∀ t', t' ∈ updateTSIfPresent m k f → t'.transport_stream_id = k →
        ∃ u ∈ m, u.transport_stream_id = k ∧ t' = f u := by
  intro m
  induction m with
  | nil => intro _ t' ht _; exact absurd ht (List.not_mem_nil t')
  | cons t rest ih =>
    intro hnodup t' ht heq
    have hnd := List.nodup_cons.mp hnodup
    rw [updateTSIfPresent_cons] at ht
    by_cases h : t.transport_stream_id = k
    · rw [if_pos h] at ht
      rcases List.mem_cons.mp ht with rfl | ht
      · exact ⟨t, List.mem_cons_self _ _, h, rfl⟩
      · exfalso
        apply hnd.1
        show t.transport_stream_id ∈ List.map (fun u => u.transport_stream_id) rest
        rw [h, ← heq]
        exact List.mem_map_of_mem _ ht
    · rw [if_neg h] at ht
      rcases List.mem_cons.mp ht with rfl | ht
      · exact absurd heq h
      · obtain ⟨u, hu, hu2, hu3⟩ := ih hnd.2 t' ht heq
        exact ⟨u, List.mem_cons_of_mem t hu, hu2, hu3⟩

lemma sdt_inner_fold_mem_ne (k : Nat) (svcs : List SDTServiceEntry) :
    ∀ m t', t' ∈ svcs.foldl
        (fun acc e => updateTSIfPresent acc k
          (fun t => { t with services := applySDTService t.services e })) m →
      t'.transport_stream_id ≠ k → t' ∈ m := by
  induction svcs with
  | nil => intro m t' ht _; exact ht
  | cons e rest ih =>
    intro m t' ht hne
    rw [List.foldl_cons] at ht
    exact mem_updateTSIfPresent_ne k
      (fun t => { t with services := applySDTService t.services e })
      (fun t => rfl) m t' (ih _ t' ht hne) hne

lemma ingestSDT_mem (sec : SDTSection) (m : List TransportStreamInfo)
    (hnodup : (tsidsOf m).Nodup) (t' : TransportStreamInfo)
    (ht : t' ∈ ingestSDTSection m sec) :
    (t'.transport_stream_id = sec.transport_stream_id →
      List.Sorted (fun a b : Nat => a ≤ b)
        (t'.services.map (fun s => s.service_id)))
    ∧ (t'.transport_stream_id ≠ sec.transport_stream_id → t' ∈ m) := by
  unfold ingestSDTSection at ht
  dsimp only at ht
  constructor
  · intro heq
    have hnodup1 : (tsidsOf (sec.services.foldl
        (fun acc e => updateTSIfPresent acc sec.transport_stream_id
          (fun t => { t with services := applySDTService t.services e })) m)).Nodup := by
      rw [tsidsOf_sdt_inner_fold sec.transport_stream_id sec.services
        (fun e t => { t with services := applySDTService t.services e })
        (fun e t => rfl) m]
      exact hnodup
    obtain ⟨u, hu, hu2, hu3⟩ := mem_updateTSIfPresent_eq sec.transport_stream_id
      (fun t => { t with services := sortServices t.services }) (fun t => rfl)
      _ hnodup1 t' ht heq
    rw [hu3]
    exact sortServices_sorted_ids u.services
  · intro hne
    have h1 := mem_updateTSIfPresent_ne sec.transport_stream_id
      (fun t => { t with services := sortServices t.services }) (fun t => rfl)
      _ t' ht hne
    exact sdt_inner_fold_mem_ne sec.transport_stream_id sec.services m t' h1 hne

lemma sdt_fold_pass_through (sdts : List SDTSection) :
    ∀ m t, t ∈ sdts.foldl ingestSDTSection m → (tsidsOf m).Nodup →
      (∀ sec ∈ sdts, sec.transport_stream_id ≠ t.transport_stream_id) →
      t ∈ m := by
  induction sdts with
  | nil => intro m t ht _ _; exact ht
  | cons sec rest ih =>
    intro m t ht hnodup hall
    rw [List.foldl_cons] at ht
    have hnodup1 : (tsidsOf (ingestSDTSection m sec)).Nodup := by
      rw [tsidsOf_ingestSDTSection]
      exact hnodup
    have h1 : t ∈ ingestSDTSection m sec :=
      ih _ t ht hnodup1 (fun s hs => hall s (List.mem_cons_of_mem _ hs))
    exact (ingestSDT_mem sec m hnodup t h1).2
      (fun hh => hall sec (List.mem_cons_self _ _) hh.symm)

lemma sdt_fold_sorted (sdts : List SDTSection) :
    ∀ m, (tsidsOf m).Nodup →
      ∀ t ∈ sdts.foldl ingestSDTSection m,
        (∃ sec ∈ sdts, sec.transport_stream_id = t.transport_stream_id) →
        List.Sorted (fun a b : Nat => a ≤ b)
          (t.services.map (fun s => s.service_id)) := by
  induction sdts with
  | nil =>
    intro m _ t _ hex
    obtain ⟨sec, hs, _⟩ := hex
    exact absurd hs (List.not_mem_nil sec)
  | cons sec0 rest ih =>
    intro m hnodup t ht hex
    rw [List.foldl_cons] at ht
    have hnodup1 : (tsidsOf (ingestSDTSection m sec0)).Nodup := by
      rw [tsidsOf_ingestSDTSection]
      exact hnodup
    by_cases hrest : ∃ sec ∈ rest, sec.transport_stream_id = t.transport_stream_id
    · exact ih _ hnodup1 t ht hrest
    · obtain ⟨sec, hsec, hsec2⟩ := hex
      rcases List.mem_cons.mp hsec with heqsec | hsec
      · subst heqsec
        push_neg at hrest
        have hpass : t ∈ ingestSDTSection m sec :=
          sdt_fold_pass_through rest _ t ht hnodup1 (fun s hs => hrest s hs)
        exact (ingestSDT_mem sec m hnodup t hpass).1 hsec2.symm
      · exact absurd ⟨sec, hsec, hsec2⟩ hrest

/-- The NIT entry of the C9 counterexample: a terrestrial transport stream
whose partial-reception descriptor lists the one-seg service ids out of
order (`104` before `103`), and which no SDT record ever touches. -/
def trEntryC9 : NITTransportStreamEntry :=
  { transport_stream_id := 100,
    tsInformationDescriptors := [{ ts_name_char := "N", remote_control_key_id := 1 }],
    partialReceptionDescriptors :=
      [{ services := [{ service_id := 104 }, { service_id := 103 }] }],
    satelliteDeliveryDescriptors := [] }

/-- The NIT section of the C9 counterexample. -/
def nitC9 : NITSection :=
  { network_id := 0x7880, networkNameDescriptors := [],
    transport_streams := [trEntryC9] }

/-- C9 counterexample: a stream whose services were created only during the
NIT pass (from the partial-reception descriptor) and to which no SDT record
was applied keeps the descriptor order `[104, 103]` in the `analyze` result —
the services list is not re-sorted, contradicting the claim that every
returned stream's services are ordered ascending by `service_id`. -/
theorem analyze_services_sorted_cex :
    (analyze [nitC9] [] "T13").map
        (fun m => m.map (fun t => t.services.map (fun s => s.service_id)))
      = .ok [[104, 103]]
    ∧ ¬ List.Sorted (fun a b : Nat => a ≤ b) [104, 103] := by
  constructor
  · decide
  · decide

/-- C9 (amended): in every `analyze` result, the services list is ordered
ascending by `service_id` for every transport stream to which at least one
SDT record was applied; a stream never named by an SDT section keeps its NIT
insertion order. -/
theorem analyze_services_sorted_amended
    (nits : List NITSection) (sdts : List SDTSection) (tuned : String)
    (m : List TransportStreamInfo)
    (h : analyze nits sdts tuned = .ok m) :
    ∀ t ∈ m, (∃ sec ∈ sdts, sec.transport_stream_id = t.transport_stream_id) →
      List.Sorted (fun a b : Nat => a ≤ b)
        (t.services.map (fun s => s.service_id)) := by
  intro t ht hex
  unfold analyze at h
  dsimp only at h
  rcases hfin : finalizeChannels tuned (renumberBS (nits.foldl ingestNITSection []))
    with err | m3 <;> rw [hfin] at h
  · simp at h
  · obtain ⟨u, hu, hu2⟩ := (computeChannelNumbers_mem _ m h).1 t ht
    have hids := (computeChannelNumbersTS_fields u t hu2).2
    have htsid := (computeChannelNumbersTS_fields u t hu2).1
    have h1 : (tsidsOf (nits.foldl ingestNITSection [])).Nodup :=
      nodup_nit_fold nits [] (by simp [tsidsOf])
    have h2 : (tsidsOf (renumberBS (nits.foldl ingestNITSection []))).Nodup := by
      rw [tsidsOf_renumberBS]
      exact h1
    have hnodup3 : (tsidsOf m3).Nodup :=
      ((finalizeChannels_perm _ _ _ hfin).nodup_iff).mpr h2
    rw [hids]
    refine sdt_fold_sorted sdts m3 hnodup3 u hu ?_
    obtain ⟨sec, hs, hs2⟩ := hex
    exact ⟨sec, hs, hs2.trans htsid⟩

/-- The C9-witness NIT section: terrestrial TSID 100 with key 1. -/
def nitW9 : NITSection :=
  { network_id := 0x7880, networkNameDescriptors := [],
    transport_streams :=
      [{ transport_stream_id := 100,
         tsInformationDescriptors := [{ ts_name_char := "N", remote_control_key_id := 1 }],
         partialReceptionDescriptors := [], satelliteDeliveryDescriptors := [] }] }

/-- The C9-witness SDT section: services arrive in the order `7, 3`. -/
def sdtW9 : SDTSection :=
  { transport_stream_id := 100,
    services :=
      [{ service_id := 7, free_CA_mode := false,
         serviceDescriptors := [{ service_type := 1, service_name := "B" }] },
       { service_id := 3, free_CA_mode := true, serviceDescriptors := [] }] }

/-- The transport stream `analyze` returns for the C9-witness inputs. -/
def tsW9 : TransportStreamInfo :=
  { physical_channel := "T13", transport_stream_id := 100, network_id := 0x7880,
    network_name := "N", remote_control_key_id := some 1,
    services :=
      [{ channel_number := "014", service_id := 3, service_type := -1,
         service_name := "Unknown", is_free := false, is_oneseg := false },
       { channel_number := "018", service_id := 7, service_type := 1,
         service_name := "B", is_free := true, is_oneseg := false }] }

/-- C9 witness: the amended theorem evaluated on a run whose single stream
received an SDT section with services arriving as `7, 3`; the result's
services are sorted as `3, 7`. -/
theorem analyze_services_sorted_amended_witness :
    analyze [nitW9] [sdtW9] "T13" = .ok [tsW9]
    ∧ List.Sorted (fun a b : Nat => a ≤ b)
        (tsW9.services.map (fun s => s.service_id)) := by
  have h := analyze_services_sorted_amended [nitW9] [sdtW9] "T13" [tsW9] (by decide)
  exact ⟨by decide,
    h tsW9 (List.mem_cons_self _ _) ⟨sdtW9, List.mem_cons_self _ _, by decide⟩⟩

/-! ### C2: characterization of the terrestrial deduplication pass -/

/-- The group members the removal loop drops: those whose recorded level
differs from the group maximum. -/
def losersOf (g : List TransportStreamInfo) (measured : String → Option ℚ) :
    List TransportStreamInfo :=
  g.filter (fun t =>
    decide (levelOf measured t.physical_channel
      ≠ maxOfLevels (buildLevels g measured)))

/-- All dropped entries of one deduplication pass, across the groups. -/
def allLosers (l : List TransportStreamInfo) (measured : String → Option ℚ) :
    List TransportStreamInfo :=
  (tsidKeys l).flatMap (fun id =>
    if (tsidGroup l id).length = 1 then []
    else losersOf (tsidGroup l id) measured)

/-- The retention predicate of the amended claim: an entry survives the pass
iff its TSID group is a singleton or its recorded mean signal level attains
the group maximum. -/
def keepB (l : List TransportStreamInfo) (measured : String → Option ℚ)
    (t : TransportStreamInfo) : Bool :=
  (tsidGroup l t.transport_stream_id).length == 1
  || decide (levelOf measured t.physical_channel
      = maxOfLevels (buildLevels (tsidGroup l t.transport_stream_id) measured))

lemma assocUpsert_not_mem (acc : List (String × ℚ)) (k : String) (v : ℚ)
    (h : ¬ acc.any (fun p => p.1 = k)) : assocUpsert acc k v = acc ++ [(k, v)] := by
  unfold assocUpsert
  rw [if_neg]
  intro hc
  exact h hc

lemma buildLevels_gen (measured : String → Option ℚ) :
    ∀ (g : List TransportStreamInfo) (acc : List (String × ℚ)),
      (∀ t ∈ g, ∀ p ∈ acc, p.1 ≠ t.physical_channel) →
      (g.map (fun t => t.physical_channel)).Nodup →
      g.foldl (fun acc t =>
          assocUpsert acc t.physical_channel
            (levelOf measured t.physical_channel)) acc
        = acc ++ g.map (fun t =>
            (t.physical_channel, levelOf measured t.physical_channel)) := by
  intro g
  induction g with
  | nil => intro acc _ _; simp
  | cons t rest ih =>
    intro acc hdisj hnd
    have hnd' := List.nodup_cons.mp hnd
    rw [List.foldl_cons, assocUpsert_not_mem]
    · rw [ih (acc ++ [(t.physical_channel, levelOf measured t.physical_channel)])
        ?_ hnd'.2]
      · simp
      · intro u hu p hp
        rcases List.mem_append.mp hp with hp | hp
        · exact hdisj u (List.mem_cons_of_mem t hu) p hp
        · rcases List.mem_singleton.mp hp with rfl
          intro hc
          dsimp only at hc
          apply hnd'.1
          show t.physical_channel ∈ rest.map (fun v => v.physical_channel)
          rw [hc]
          exact List.mem_map_of_mem _ hu
    · intro hc
      rw [List.any_eq_true] at hc
      obtain ⟨p, hp, hp2⟩ := hc
      exact hdisj t (List.mem_cons_self t rest) p hp (of_decide_eq_true hp2)

lemma buildLevels_eq_map (g : List TransportStreamInfo)
    (measured : String → Option ℚ)
    (hg : (g.map (fun t => t.physical_channel)).Nodup) :
    buildLevels g measured
      = g.map (fun t => (t.physical_channel, levelOf measured t.physical_channel)) := by
  unfold buildLevels
  rw [buildLevels_gen measured g [] (fun t _ p hp => absurd hp (List.not_mem_nil p)) hg]
  simp

lemma find?_phys_self :
    ∀ (g : List TransportStreamInfo),
      (g.map (fun t => t.physical_channel)).Nodup →
      ∀ t ∈ g, g.find? (fun u => u.physical_channel = t.physical_channel) = some t := by
  intro g
  induction g with
  | nil => intro _ t ht; exact absurd ht (List.not_mem_nil t)
  | cons u rest ih =>
    intro hnd t ht
    have hnd' := List.nodup_cons.mp hnd
    by_cases h : u.physical_channel = t.physical_channel
    · rcases List.mem_cons.mp ht with heq | ht2
      · subst heq
        simp [List.find?_cons]
      · exfalso
        apply hnd'.1
        show u.physical_channel ∈ rest.map (fun v => v.physical_channel)
        rw [h]
        exact List.mem_map_of_mem _ ht2
    · have ht2 : t ∈ rest := by
        rcases List.mem_cons.mp ht with heq | h2
        · exact absurd (heq ▸ rfl) h
        · exact h2
      rw [List.find?_cons, decide_eq_false h]
      exact ih hnd'.2 t ht2

lemma removeLosers_fold_eq_diff (measured : String → Option ℚ) (M : ℚ)
    (g0 : List TransportStreamInfo) :
    ∀ (g : List TransportStreamInfo) (acc : List TransportStreamInfo),
      (∀ t ∈ g, g0.find? (fun u => u.physical_channel = t.physical_channel)
        = some t) →
      List.foldl
        (fun acc2 p =>
          if p.2 ≠ M then
            (match g0.find? (fun u => u.physical_channel = p.1) with
              | some t => acc2.erase t
              | none => acc2)
          else acc2)
        acc
        (g.map (fun t => (t.physical_channel, levelOf measured t.physical_channel)))
      = acc.diff (g.filter (fun t =>
          decide (levelOf measured t.physical_channel ≠ M))) := by
  intro g
  induction g with
  | nil => intro acc _; simp
  | cons t rest ih =>
    intro acc hfind
    rw [List.map_cons, List.foldl_cons, List.filter_cons]
    have hfindt := hfind t (List.mem_cons_self t rest)
    by_cases hl : levelOf measured t.physical_channel ≠ M
    · rw [if_pos hl]
      dsimp only
      rw [hfindt]
      rw [ih (acc.erase t) (fun u hu => hfind u (List.mem_cons_of_mem t hu))]
      rw [if_pos (by simp [hl])]
      rw [List.diff_cons]
    · rw [if_neg hl]
      rw [ih acc (fun u hu => hfind u (List.mem_cons_of_mem t hu))]
      rw [if_neg (by simp at hl ⊢; exact hl)]

lemma removeLosers_eq_diff (g : List TransportStreamInfo)
    (measured : String → Option ℚ)
    (hg : (g.map (fun t => t.physical_channel)).Nodup)
    (acc : List TransportStreamInfo) :
    removeLosers acc g measured = acc.diff (losersOf g measured) := by
  unfold removeLosers losersOf
  dsimp only
  generalize maxOfLevels (buildLevels g measured) = M
  rw [buildLevels_eq_map g measured hg]
  exact removeLosers_fold_eq_diff measured M g g acc (find?_phys_self g hg)

lemma insertKey_mem_of (ks : List Nat) (k k' : Nat) (h : k' ∈ ks) :
    k' ∈ insertKey ks k := by
  unfold insertKey
  split
  · exact h
  · exact List.mem_append_left _ h

lemma insertKey_mem_self (ks : List Nat) (k : Nat) : k ∈ insertKey ks k := by
  unfold insertKey
  split
  · assumption
  · exact List.mem_append_right _ (List.mem_singleton.mpr rfl)

lemma foldl_insertKey_mono :
    ∀ (l : List TransportStreamInfo) (acc : List Nat) (k : Nat), k ∈ acc →
      k ∈ l.foldl (fun ks t => insertKey ks t.transport_stream_id) acc := by
  intro l
  induction l with
  | nil => intro acc k h; exact h
  | cons t rest ih =>
    intro acc k h
    rw [List.foldl_cons]
    exact ih _ k (insertKey_mem_of acc t.transport_stream_id k h)

lemma mem_foldl_insertKey :
    ∀ (l : List TransportStreamInfo) (acc : List Nat) (t : TransportStreamInfo),
      t ∈ l →
      t.transport_stream_id
        ∈ l.foldl (fun ks u => insertKey ks u.transport_stream_id) acc := by
  intro l
  induction l with
  | nil => intro acc t ht; exact absurd ht (List.not_mem_nil t)
  | cons u rest ih =>
    intro acc t ht
    rw [List.foldl_cons]
    rcases List.mem_cons.mp ht with heq | ht2
    · subst heq
      exact foldl_insertKey_mono rest _ _
        (insertKey_mem_self acc t.transport_stream_id)
    · exact ih _ t ht2

lemma mem_tsidKeys (l : List TransportStreamInfo) (t : TransportStreamInfo)
    (ht : t ∈ l) : t.transport_stream_id ∈ tsidKeys l :=
  mem_foldl_insertKey l [] t ht

lemma tsidGroup_phys_nodup (l : List TransportStreamInfo)
    (hphys : (l.map (fun t => t.physical_channel)).Nodup) (id : Nat) :
    ((tsidGroup l id).map (fun t => t.physical_channel)).Nodup :=
  ((List.filter_sublist l).map _).nodup hphys

lemma dedup_eq_diff_gen (l : List TransportStreamInfo)
    (measured : String → Option ℚ)
    (hphys : (l.map (fun t => t.physical_channel)).Nodup) :
    ∀ (keys : List Nat) (acc : List TransportStreamInfo),
      keys.foldl
        (fun acc tsid =>
          let g := tsidGroup l tsid
          if g.length = 1 then acc else removeLosers acc g measured)
        acc
      = acc.diff (keys.flatMap (fun id =>
          if (tsidGroup l id).length = 1 then []
          else losersOf (tsidGroup l id) measured)) := by
  intro keys
  induction keys with
  | nil => intro acc; simp
  | cons id rest ih =>
    intro acc
    rw [List.foldl_cons, List.flatMap_cons]
    dsimp only
    by_cases h : (tsidGroup l id).length = 1
    · rw [if_pos h, if_pos h, ih, List.nil_append]
    · rw [if_neg h, if_neg h,
        removeLosers_eq_diff (tsidGroup l id) measured (tsidGroup_phys_nodup l hphys id) acc,
        ih, List.diff_append]

lemma dedupTerrestrial_eq_diff (l : List TransportStreamInfo)
    (measured : String → Option ℚ)
    (hphys : (l.map (fun t => t.physical_channel)).Nodup) :
    dedupTerrestrial l measured = l.diff (allLosers l measured) := by
  unfold dedupTerrestrial allLosers
  exact dedup_eq_diff_gen l measured hphys (tsidKeys l) l

lemma mem_allLosers_iff (l : List TransportStreamInfo)
    (measured : String → Option ℚ) (t : TransportStreamInfo) (ht : t ∈ l) :
    t ∈ allLosers l measured ↔
      ((tsidGroup l t.transport_stream_id).length ≠ 1
        ∧ levelOf measured t.physical_channel
            ≠ maxOfLevels (buildLevels (tsidGroup l t.transport_stream_id) measured)) := by
  unfold allLosers
  rw [List.mem_flatMap]
  constructor
  · rintro ⟨id, hid, hmem⟩
    by_cases h : (tsidGroup l id).length = 1
    · rw [if_pos h] at hmem
      exact absurd hmem (List.not_mem_nil t)
    · rw [if_neg h] at hmem
      unfold losersOf at hmem
      have h2 := List.mem_filter.mp hmem
      have htg : t ∈ tsidGroup l id := h2.1
      have hid2 : t.transport_stream_id = id := by
        have := (List.mem_filter.mp htg).2
        exact of_decide_eq_true this
      subst hid2
      exact ⟨h, of_decide_eq_true h2.2⟩
  · rintro ⟨h1, h2⟩
    refine ⟨t.transport_stream_id, mem_tsidKeys l t ht, ?_⟩
    rw [if_neg h1]
    unfold losersOf
    rw [List.mem_filter]
    constructor
    · unfold tsidGroup
      rw [List.mem_filter]
      exact ⟨ht, by simp⟩
    · simp [h2]

lemma dedupTerrestrial_filter_keep (l : List TransportStreamInfo)
    (measured : String → Option ℚ)
    (hphys : (l.map (fun t => t.physical_channel)).Nodup) :
    dedupTerrestrial l measured = l.filter (keepB l measured) := by
  rw [dedupTerrestrial_eq_diff l measured hphys]
  have hnodup : l.Nodup := hphys.of_map
  rw [hnodup.diff_eq_filter]
  apply List.filter_congr
  intro t ht
  have hiff := mem_allLosers_iff l measured t ht
  have hkey : (t ∉ allLosers l measured) ↔ keepB l measured t = true := by
    rw [hiff]
    unfold keepB
    rw [Bool.or_eq_true, beq_iff_eq, decide_eq_true_eq]
    push_neg
    constructor
    · intro h
      by_cases h1 : (tsidGroup l t.transport_stream_id).length = 1
      · exact Or.inl h1
      · exact Or.inr (h h1)
    · intro h h1
      rcases h with h | h
      · exact absurd h h1
      · exact h
  cases hk : keepB l measured t with
  | true => simp [hkey.mpr hk]
  | false =>
    have hmem : t ∈ allLosers l measured := by
      by_contra hc
      rw [hkey, hk] at hc
      exact Bool.false_ne_true hc
    simp [hmem]

/-- The duplicate pair of the C2 scenario: one terrestrial broadcaster (TSID
100) received on physical channels `T13` and `T21`. -/
def tsT13 : TransportStreamInfo :=
  { transport_stream_id := 100, physical_channel := "T13", network_id := 0x7880 }

/-- The `T21` sibling of `tsT13`. -/
def tsT21 : TransportStreamInfo :=
  { transport_stream_id := 100, physical_channel := "T21", network_id := 0x7880 }

/-- Signal sampling of the C2 scenario: 12.5 dB on `T13`, 18.0 dB on `T21`. -/
def measuredC2 : String → Option ℚ :=
  fun p =>
    if p = "T13" then some (mkRat 25 2)
    else if p = "T21" then some (mkRat 18 1) else none

/-- Signal sampling that fails on every channel. -/
def measuredNoneC2 : String → Option ℚ := fun _ => none

/-- C2 counterexample: a group of two entries sharing TSID 100 on the two
physical channels `T13` and `T21`, neither of whose signal levels could be
measured, ties at the sentinel level; the pass retains *both* entries, not
"exactly the entry with the strongest level, ties broken by keeping the first
encountered" (which would retain one). -/
theorem dedupTerrestrial_strongest_cex :
    dedupTerrestrial [tsT13, tsT21] measuredNoneC2 = [tsT13, tsT21]
    ∧ (dedupTerrestrial [tsT13, tsT21] measuredNoneC2).length = 2 := by
  constructor
  · decide
  · decide

/-- C2 (amended): when the accumulated terrestrial entries carry pairwise
distinct physical channels (as in a scan, where each physical channel is
tuned once), the deduplication pass retains exactly the entries whose group
is a singleton or whose recorded mean signal level attains their group's
maximum — a uniquely strongest entry is retained alone, while ties retain
every tied entry; a channel whose level could not be measured is recorded at
the sentinel `-99.99`, below every real measurement (a mean of non-negative
parsed dB readings); and the concrete `12.5` vs `18.0` scenario retains only
the `T21` entry. -/
theorem dedupTerrestrial_amended (l : List TransportStreamInfo)
    (measured : String → Option ℚ)
    (hphys : (l.map (fun t => t.physical_channel)).Nodup) :
    dedupTerrestrial l measured = l.filter (keepB l measured)
    ∧ (∀ phys, measured phys = none →
        levelOf measured phys = sentinelSignalLevel)
    ∧ (∀ readings q, getSignalLevelMean readings = some q →
        (∀ r ∈ readings, 0 ≤ r) → sentinelSignalLevel < q)
    ∧ dedupTerrestrial [tsT13, tsT21] measuredC2 = [tsT21] := by
  refine ⟨dedupTerrestrial_filter_keep l measured hphys, ?_, ?_, by decide⟩
  · intro phys h
    unfold levelOf
    rw [h]
    rfl
  · intro readings q hq hnn
    unfold getSignalLevelMean at hq
    split at hq
    · simp at hq
    · injection hq with hq
      have hsum : 0 ≤ (readings.take 5).sum :=
        List.sum_nonneg (fun r hr => hnn r (List.mem_of_mem_take hr))
      have hq2 : 0 ≤ q := by
        rw [← hq]
        positivity
      calc sentinelSignalLevel < 0 := by decide
        _ ≤ q := hq2

/-- C2 witness: the amended characterization evaluated on the concrete
`T13`/`T21` pair with measurements 12.5 dB and 18.0 dB. -/
theorem dedupTerrestrial_amended_witness :
    (([tsT13, tsT21].map (fun t => t.physical_channel)).Nodup)
    ∧ dedupTerrestrial [tsT13, tsT21] measuredC2
        = [tsT13, tsT21].filter (keepB [tsT13, tsT21] measuredC2)
    ∧ dedupTerrestrial [tsT13, tsT21] measuredC2 = [tsT21] := by
  have h := dedupTerrestrial_amended [tsT13, tsT21] measuredC2 (by decide)
  exact ⟨by decide, h.1, h.2.2.2⟩
